import Mathlib

/-!
Verification of the `ndfc_doc_builder` repository (Python) against its
natural-language specification.

The embedding models Python values flowing through the program as the
inductive type `PyVal` (JSON-like data plus the bool/int/float results of
the cleaning pipeline).  Python floats are represented by the literal text
that `float()` accepted; no claim compares two distinct float literals, so
this representation is adequate.  Functions that can raise a Python
exception are embedded as `Except PyErr _`; an `Except.error` result means
the Python call raised, and (for property setters) that the object's
stored state is unchanged, since CPython raises before any assignment in
the translated code paths.
-/

/-- Python exception classes that the translated code can raise.  Messages
are irrelevant to every claim and are not modelled. -/
inductive PyErr where
  | keyError
  | typeError
  | attributeError
  | valueError
  | indexError
  | systemExit
  | ndfcRequestError
  deriving DecidableEq, Repr

/-- Python runtime values reachable in this program: JSON data (`none`,
`str`, `bool`, `int`, `list`, `dict`) plus floats produced by
`clean_string`.  A float carries the literal string that Python's
`float()` parsed. -/
inductive PyVal where
  | none
  | str (s : String)
  | bool (b : Bool)
  | int (n : Int)
  | float (lit : String)
  | list (xs : List PyVal)
  | dict (fields : List (String × PyVal))
  deriving Repr

mutual

def pyValDecEq : (a b : PyVal) → Decidable (a = b)
  | .none, .none => isTrue rfl
  | .str a, .str b =>
    match String.decEq a b with
    | isTrue h => isTrue (h ▸ rfl)
    | isFalse h => isFalse (fun hh => h (PyVal.str.inj hh))
  | .bool a, .bool b =>
    match Bool.decEq a b with
    | isTrue h => isTrue (h ▸ rfl)
    | isFalse h => isFalse (fun hh => h (PyVal.bool.inj hh))
  | .int a, .int b =>
    match Int.instDecidableEq a b with
    | isTrue h => isTrue (h ▸ rfl)
    | isFalse h => isFalse (fun hh => h (PyVal.int.inj hh))
  | .float a, .float b =>
    match String.decEq a b with
    | isTrue h => isTrue (h ▸ rfl)
    | isFalse h => isFalse (fun hh => h (PyVal.float.inj hh))
  | .list xs, .list ys =>
    match pyListDecEq xs ys with
    | isTrue h => isTrue (h ▸ rfl)
    | isFalse h => isFalse (fun hh => h (PyVal.list.inj hh))
  | .dict fs, .dict gs =>
    match pyFieldsDecEq fs gs with
    | isTrue h => isTrue (h ▸ rfl)
    | isFalse h => isFalse (fun hh => h (PyVal.dict.inj hh))
  | .none, .str _ => isFalse (fun h => PyVal.noConfusion h)
  | .none, .bool _ => isFalse (fun h => PyVal.noConfusion h)
  | .none, .int _ => isFalse (fun h => PyVal.noConfusion h)
  | .none, .float _ => isFalse (fun h => PyVal.noConfusion h)
  | .none, .list _ => isFalse (fun h => PyVal.noConfusion h)
  | .none, .dict _ => isFalse (fun h => PyVal.noConfusion h)
  | .str _, .none => isFalse (fun h => PyVal.noConfusion h)
  | .str _, .bool _ => isFalse (fun h => PyVal.noConfusion h)
  | .str _, .int _ => isFalse (fun h => PyVal.noConfusion h)
  | .str _, .float _ => isFalse (fun h => PyVal.noConfusion h)
  | .str _, .list _ => isFalse (fun h => PyVal.noConfusion h)
  | .str _, .dict _ => isFalse (fun h => PyVal.noConfusion h)
  | .bool _, .none => isFalse (fun h => PyVal.noConfusion h)
  | .bool _, .str _ => isFalse (fun h => PyVal.noConfusion h)
  | .bool _, .int _ => isFalse (fun h => PyVal.noConfusion h)
  | .bool _, .float _ => isFalse (fun h => PyVal.noConfusion h)
  | .bool _, .list _ => isFalse (fun h => PyVal.noConfusion h)
  | .bool _, .dict _ => isFalse (fun h => PyVal.noConfusion h)
  | .int _, .none => isFalse (fun h => PyVal.noConfusion h)
  | .int _, .str _ => isFalse (fun h => PyVal.noConfusion h)
  | .int _, .bool _ => isFalse (fun h => PyVal.noConfusion h)
  | .int _, .float _ => isFalse (fun h => PyVal.noConfusion h)
  | .int _, .list _ => isFalse (fun h => PyVal.noConfusion h)
  | .int _, .dict _ => isFalse (fun h => PyVal.noConfusion h)
  | .float _, .none => isFalse (fun h => PyVal.noConfusion h)
  | .float _, .str _ => isFalse (fun h => PyVal.noConfusion h)
  | .float _, .bool _ => isFalse (fun h => PyVal.noConfusion h)
  | .float _, .int _ => isFalse (fun h => PyVal.noConfusion h)
  | .float _, .list _ => isFalse (fun h => PyVal.noConfusion h)
  | .float _, .dict _ => isFalse (fun h => PyVal.noConfusion h)
  | .list _, .none => isFalse (fun h => PyVal.noConfusion h)
  | .list _, .str _ => isFalse (fun h => PyVal.noConfusion h)
  | .list _, .bool _ => isFalse (fun h => PyVal.noConfusion h)
  | .list _, .int _ => isFalse (fun h => PyVal.noConfusion h)
  | .list _, .float _ => isFalse (fun h => PyVal.noConfusion h)
  | .list _, .dict _ => isFalse (fun h => PyVal.noConfusion h)
  | .dict _, .none => isFalse (fun h => PyVal.noConfusion h)
  | .dict _, .str _ => isFalse (fun h => PyVal.noConfusion h)
  | .dict _, .bool _ => isFalse (fun h => PyVal.noConfusion h)
  | .dict _, .int _ => isFalse (fun h => PyVal.noConfusion h)
  | .dict _, .float _ => isFalse (fun h => PyVal.noConfusion h)
  | .dict _, .list _ => isFalse (fun h => PyVal.noConfusion h)

def pyListDecEq : (xs ys : List PyVal) → Decidable (xs = ys)
  | [], [] => isTrue rfl
  | [], _ :: _ => isFalse (fun h => List.noConfusion h)
  | _ :: _, [] => isFalse (fun h => List.noConfusion h)
  | x :: xs, y :: ys =>
    match pyValDecEq x y with
    | isTrue h1 =>
      match pyListDecEq xs ys with
      | isTrue h2 => isTrue (h1 ▸ h2 ▸ rfl)
      | isFalse h2 => isFalse (fun hh => h2 (List.cons.inj hh).2)
    | isFalse h1 => isFalse (fun hh => h1 (List.cons.inj hh).1)

def pyFieldsDecEq : (fs gs : List (String × PyVal)) → Decidable (fs = gs)
  | [], [] => isTrue rfl
  | [], _ :: _ => isFalse (fun h => List.noConfusion h)
  | _ :: _, [] => isFalse (fun h => List.noConfusion h)
  | (k₁, v₁) :: fs, (k₂, v₂) :: gs =>
    match String.decEq k₁ k₂ with
    | isTrue hk =>
      match pyValDecEq v₁ v₂ with
      | isTrue hv =>
        match pyFieldsDecEq fs gs with
        | isTrue ht => isTrue (by rw [hk, hv, ht])
        | isFalse ht => isFalse (fun hh => ht (List.cons.inj hh).2)
      | isFalse hv => isFalse (fun hh => hv (congrArg Prod.snd (List.cons.inj hh).1))
    | isFalse hk => isFalse (fun hh => hk (congrArg Prod.fst (List.cons.inj hh).1))

end

instance : DecidableEq PyVal := pyValDecEq

deriving instance DecidableEq for Except

mutual

/-- Python `==` between the values this program compares.  Exact for
`None`/`str`/`bool`/`int` and for `bool`-vs-`int` numeric equality; two
floats compare by literal (the program never compares two different float
literals); containers compare structurally. -/
def pyEq : PyVal → PyVal → Bool
  | .none, .none => true
  | .str a, .str b => a = b
  | .bool a, .bool b => a = b
  | .int a, .int b => a = b
  | .bool a, .int b => (if a then (1 : Int) else 0) = b
  | .int a, .bool b => a = (if b then (1 : Int) else 0)
  | .float a, .float b => a = b
  | .list xs, .list ys => pyEqList xs ys
  | .dict fs, .dict gs => pyEqFields fs gs
  | _, _ => false

def pyEqList : List PyVal → List PyVal → Bool
  | [], [] => true
  | x :: xs, y :: ys => pyEq x y && pyEqList xs ys
  | _, _ => false

def pyEqFields : List (String × PyVal) → List (String × PyVal) → Bool
  | [], [] => true
  | (k₁, v₁) :: fs, (k₂, v₂) :: gs => k₁ = k₂ && pyEq v₁ v₂ && pyEqFields fs gs
  | _, _ => false

end

/-- Whitespace characters recognized by Python's `str.strip` and `\s`
(ASCII range, which is all this data contains). -/
def pyIsSpace (c : Char) : Bool :=
  c = ' ' || c = '\t' || c = '\n' || c = '\x0d' || c = '\x0b' || c = '\x0c'

/-- Python `str.strip()` on the character list of a string. -/
def pyStripL (cs : List Char) : List Char :=
  ((cs.dropWhile pyIsSpace).reverse.dropWhile pyIsSpace).reverse

/-- Fuel-driven worker for `replaceAll`.  Each step consumes at least one
character of the input, so fuel equal to the input length (as supplied by
`replaceAll`) makes the fuel-exhaustion branch unreachable. -/
def replaceAllFuel (pat rep : List Char) : Nat → List Char → List Char
  | _, [] => []
  | 0, s => s
  | fuel + 1, c :: rest =>
    if pat ≠ [] && pat.isPrefixOf (c :: rest) then
      rep ++ replaceAllFuel pat rep fuel ((c :: rest).drop pat.length)
    else
      c :: replaceAllFuel pat rep fuel rest

/-- `re.sub(pat, rep, s)` for a literal pattern: replace every
non-overlapping occurrence, scanning left to right. -/
def replaceAll (pat rep s : List Char) : List Char :=
  replaceAllFuel pat rep s.length s

/-- Whether `pat` occurs as a contiguous sublist of `s`. -/
def containsSub (pat : List Char) : List Char → Bool
  | [] => pat.isPrefixOf []
  | c :: rest => pat.isPrefixOf (c :: rest) || containsSub pat rest

/-- Worker for `collapseWs`; the flag records whether the previous
character was whitespace (so only the first character of a run emits a
space). -/
def collapseWsAux : Bool → List Char → List Char
  | _, [] => []
  | prevWs, c :: rest =>
    if pyIsSpace c then
      if prevWs then collapseWsAux true rest
      else ' ' :: collapseWsAux true rest
    else c :: collapseWsAux false rest

/-- `re.sub(r"\s+", " ", s)`: collapse each maximal run of whitespace to a
single space. -/
def collapseWs (cs : List Char) : List Char := collapseWsAux false cs

/-- Python `str()` of a value, as far as the program inspects it: exact
for `None`, `bool`, `int` and `str`; a float prints as its literal; list
and dict reprs are abbreviated (the program only ever asks whether such a
repr equals a boolean word or contains "TEMPLATES", and neither can
happen). -/
def pyStrOfVal : PyVal → String
  | .none => "None"
  | .str s => s
  | .bool b => if b then "True" else "False"
  | .int n => toString n
  | .float lit => lit
  | .list _ => "[...]"
  | .dict _ => "\x7b...\x7d"

/-- Python `str.lower()` (ASCII). -/
def pyLower (s : String) : String := String.mk (s.data.map Char.toLower)

/-- `NdfcTemplate.make_bool`: map "true"/"yes" (case-insensitive, after
`str()`) to `True`, "false"/"no" to `False`, anything else to itself. -/
def make_bool (value : PyVal) : PyVal :=
  let low := pyLower (pyStrOfVal value)
  if low = "true" || low = "yes" then .bool true
  else if low = "false" || low = "no" then .bool false
  else value

/-- Digit-run parser shared by the model of Python `int()`: digits with
single underscores allowed between digits. `parseDigits` requires a
leading digit. -/
def parseDigitsMore : List Char → Nat → Option Nat
  | [], acc => some acc
  | c :: rest, acc =>
    if c.isDigit then parseDigitsMore rest (acc * 10 + (c.toNat - 48))
    else if c = '_' then
      match rest with
      | d :: rest' =>
        if d.isDigit then parseDigitsMore rest' (acc * 10 + (d.toNat - 48))
        else Option.none
      | [] => Option.none
    else Option.none

def parseDigits : List Char → Option Nat
  | [] => Option.none
  | c :: rest => if c.isDigit then parseDigitsMore rest (c.toNat - 48) else Option.none

/-- Python `int(s)` for base-10 string input: optional surrounding
whitespace, optional sign, then digits with optional single underscores
between digits. -/
def pyIntParse (cs : List Char) : Option Int :=
  match pyStripL cs with
  | '+' :: rest => (parseDigits rest).map Int.ofNat
  | '-' :: rest => (parseDigits rest).map (fun n => -(Int.ofNat n : Int))
  | t => (parseDigits t).map Int.ofNat

/-- Mantissa check for the model of Python `float(s)`:
`digits ["." [digits]] | "." digits`. -/
def floatMantissaOk (cs : List Char) : Bool :=
  match cs.splitOn '.' with
  | [whole] => (parseDigits whole).isSome
  | [whole, frac] =>
    if whole = [] then (parseDigits frac).isSome
    else (parseDigits whole).isSome && (frac = [] || (parseDigits frac).isSome)
  | _ => false

/-- Exponent check for the model of Python `float(s)`: optional sign then
digits. -/
def floatExpOk (cs : List Char) : Bool :=
  match cs with
  | '+' :: rest => (parseDigits rest).isSome
  | '-' :: rest => (parseDigits rest).isSome
  | t => (parseDigits t).isSome

/-- Whether Python `float(s)` succeeds on `s`: optional whitespace and
sign, then "inf"/"infinity"/"nan" (case-insensitive) or a decimal
mantissa with optional exponent. -/
def pyFloatParses (cs : List Char) : Bool :=
  let t :=
    match pyStripL cs with
    | '+' :: rest => rest
    | '-' :: rest => rest
    | u => u
  let low := t.map Char.toLower
  if low = "inf".data || low = "infinity".data || low = "nan".data then true
  else
    match low.splitOn 'e' with
    | [mant] => floatMantissaOk mant
    | [mant, ex] => floatMantissaOk mant && floatExpOk ex
    | _ => false

/-- The final coercion chain of `clean_string` applied to the scrubbed
character list: `make_bool`, then `int()`, then `float()`, falling back
to the string itself. -/
def coerceCleaned (cs : List Char) : Except PyErr PyVal :=
  let t := String.mk cs
  match make_bool (.str t) with
  | .bool b => .ok (.bool b)
  | _ =>
    match pyIntParse cs with
    | some n => .ok (.int n)
    | Option.none =>
      if pyFloatParses cs then .ok (.float t) else .ok (.str t)

/-- The substring rewrites of `clean_string`, in source order, followed
by the whitespace-run collapse. -/
def scrubChars (c0 : List Char) : List Char :=
  let c1 := replaceAll "<br />".data " ".data c0
  let c2 := replaceAll "&#39;".data [] c1
  let c3 := replaceAll "&#43;".data ['+'] c2
  let c4 := replaceAll "&#61;".data ['='] c3
  let c5 := replaceAll "amp;".data [] c4
  let c6 := replaceAll ['['] [] c5
  let c7 := replaceAll [']'] [] c6
  let c8 := replaceAll ['\"'] [] c7
  let c9 := replaceAll ['\''] [] c8
  collapseWs c9

/-- `NdfcTemplate.clean_string`.  `None` becomes `""`.  A string is
stripped, has the fixed literal substrings rewritten, has whitespace runs
collapsed, and is then coerced by `make_bool`, `int()` and `float()` in
that order.  Any other value raises `AttributeError` (no `.strip`
method). -/
def clean_string (v : PyVal) : Except PyErr PyVal :=
  match v with
  | .none => .ok (.str "")
  | .str s => coerceCleaned (scrubChars (pyStripL s.data))
  | _ => .error .attributeError

/-- Python `item[key]` subscripting: `KeyError` when a dict lacks the
key, `TypeError` when the value is not a dict at all. -/
def pySubscript (v : PyVal) (key : String) : Except PyErr PyVal :=
  match v with
  | .dict fs =>
    match fs.lookup key with
    | some x => .ok x
    | Option.none => .error .keyError
  | _ => .error .typeError

/-- Python `item.get(key, None)`: `AttributeError` when `item` is not a
dict. -/
def pyDictGet (v : PyVal) (key : String) : Except PyErr PyVal :=
  match v with
  | .dict fs => .ok ((fs.lookup key).getD .none)
  | _ => .error .attributeError

mutual

/-- `NdfcTemplate.get_dict_value`: return the value of the first instance
of `key` found by checking the current dict's own keys and then
recursing, in insertion order, into those values that are dicts; `None`
(which Python conflates with a found `null`) when the key is not found or
`item` is not a dict. -/
def get_dict_value (item : PyVal) (key : String) : PyVal :=
  match item with
  | .dict fs =>
    match fs.lookup key with
    | some v => v
    | Option.none => gdvFields fs key
  | _ => .none

/-- The `for k, v in item.items()` loop of `get_dict_value`: recurse into
dict-valued fields, returning the first non-`None` result. -/
def gdvFields (fs : List (String × PyVal)) (key : String) : PyVal :=
  match fs with
  | [] => .none
  | (_, v) :: rest =>
    match v with
    | .dict gs =>
      match get_dict_value (.dict gs) key with
      | .none => gdvFields rest key
      | x => x
    | _ => gdvFields rest key

end

/-- `NdfcTemplate.get_name`: `item['name']` with `KeyError` mapped to the
literal "unknown", passed through `clean_string`. -/
def get_name (item : PyVal) : Except PyErr PyVal :=
  match pySubscript item "name" with
  | .error .keyError => clean_string (.str "unknown")
  | .error e => .error e
  | .ok r => clean_string r

/-- `NdfcTemplate.get_section`: the cleaned first `Section` value found by
recursive key search (absence cleans to `""`). -/
def get_section (item : PyVal) : Except PyErr PyVal :=
  clean_string (get_dict_value item "Section")

/-- `NdfcTemplate.is_hidden`: `True` iff the cleaned Section value
contains the substring "Hidden"; Python's `in` raises `TypeError` when
the cleaned value is not a string. -/
def is_hidden (item : PyVal) : Except PyErr PyVal :=
  match get_section item with
  | .error e => .error e
  | .ok (.str s) => .ok (.bool (containsSub "Hidden".data s.data))
  | .ok _ => .error .typeError

/-- `NdfcTemplate.is_internal`: `make_bool` of the first `IsInternal`
value found by recursive key search. -/
def is_internal (item : PyVal) : PyVal :=
  make_bool (get_dict_value item "IsInternal")

/-- `NdfcTemplate.get_default_value_meta_properties`:
`item["metaProperties"]["defaultValue"]` cleaned, with `KeyError` from
either subscript mapped to `None`. -/
def get_default_value_meta_properties (item : PyVal) : Except PyErr PyVal :=
  match pySubscript item "metaProperties" with
  | .error .keyError => .ok .none
  | .error e => .error e
  | .ok mp =>
    match pySubscript mp "defaultValue" with
    | .error .keyError => .ok .none
    | .error e => .error e
    | .ok r => clean_string r

/-- `NdfcTemplate.get_default_value_root`: top-level
`item["defaultValue"]` cleaned, with `KeyError` mapped to `None`. -/
def get_default_value_root (item : PyVal) : Except PyErr PyVal :=
  match pySubscript item "defaultValue" with
  | .error .keyError => .ok .none
  | .error e => .error e
  | .ok r => clean_string r

/-- `NdfcTemplate.get_default_value`: `metaProperties.defaultValue`
first, falling back to the top-level `defaultValue` only when the former
came back `None`. -/
def get_default_value (item : PyVal) : Except PyErr PyVal :=
  match get_default_value_meta_properties item with
  | .error e => .error e
  | .ok r => if r ≠ PyVal.none then .ok r else get_default_value_root item

/-- `NdfcTemplate.is_required`, translated literally: the guard is
`if default is not None or default != ""`, with Python's `or`. -/
def is_required (item : PyVal) : Except PyErr PyVal :=
  match get_default_value item with
  | .error e => .error e
  | .ok default =>
    if decide (default ≠ PyVal.none) || !(pyEq default (.str "")) then .ok (.bool false)
    else
      match pyDictGet item "optional" with
      | .error e => .error e
      | .ok ov =>
        match make_bool ov with
        | .bool true => .ok (.bool false)
        | .bool false => .ok (.bool true)
        | _ => .ok .none

/-- Python `s.split(sep)` for a one-character separator. -/
def splitOnChar (sep : Char) : List Char → List (List Char)
  | [] => [[]]
  | c :: rest =>
    let r := splitOnChar sep rest
    if c = sep then [] :: r
    else
      match r with
      | h :: t => (c :: h) :: t
      | [] => [[c]]

/-- `NdfcTemplate.get_enum`: the first `Enum` value found by recursive
key search, cleaned, split on commas; the whole list is converted to
integers when every piece parses as one.  `.split` on a cleaned value
that is no longer a string raises `AttributeError`. -/
def get_enum (item : PyVal) : Except PyErr PyVal :=
  match get_dict_value item "Enum" with
  | .none => .ok (.list [])
  | r =>
    match clean_string r with
    | .error e => .error e
    | .ok (.str s) =>
      let parts := splitOnChar ',' s.data
      if parts.all (fun p => (pyIntParse p).isSome) then
        .ok (.list (parts.map (fun p => .int ((pyIntParse p).getD 0))))
      else
        .ok (.list (parts.map (fun p => .str (String.mk p))))
    | .ok _ => .error .attributeError

/-- The `_parameter_type_translation` table built by
`NdfcTemplate._init_translation`. -/
def parameter_type_translation : List (String × String) :=
  [("bool", "bool"), ("boolean", "bool"), ("BOOLEAN", "bool"),
   ("enum", "str"), ("int", "int"), ("integer", "int"), ("INT", "int"),
   ("INTEGER", "int"), ("interfaceRange", "str"), ("integerRange", "str"),
   ("ipAddress", "str"), ("ipAddressList", "str"), ("ipV4Address", "str"),
   ("ipV4AddressWithSubnet", "str"), ("ipV6Address", "str"),
   ("ipV6AddressWithSubnet", "str"), ("ipv4", "str"), ("ipv6", "str"),
   ("ipv4_subnet", "str"), ("ipv6_subnet", "str"), ("list", "list"),
   ("macAddress", "str"), ("str", "str"), ("string", "str"),
   ("string[]", "str"), ("STRING", "str"), ("structureArray", "list")]

/-- `NdfcTemplate.get_parameter_type`: the first `parameterType` value
found by recursive key search, mapped through the fixed translation
table; untranslated values pass through, absence yields `None`. -/
def get_parameter_type (item : PyVal) : PyVal :=
  match get_dict_value item "parameterType" with
  | .none => .none
  | .str s =>
    match parameter_type_translation.lookup s with
    | some t => .str t
    | Option.none => .str s
  | other => other

/-- Literal-prefix matcher: the suffix after `lit` when `s` starts with
it. -/
def matchLit (lit s : List Char) : Option (List Char) :=
  if lit.isPrefixOf s then some (s.drop lit.length) else Option.none

/-- Backtracking `\s*` followed by a literal, as Python's regex engine
resolves it: try the longest whitespace prefix first (the literal here
itself starts with a space, so shorter prefixes can also succeed). -/
def matchWsLitAux (lit s : List Char) : Nat → Option (List Char)
  | 0 => matchLit lit s
  | j + 1 =>
    match matchLit lit (s.drop (j + 1)) with
    | some r => some r
    | Option.none => matchWsLitAux lit s j

def matchWsThenLit (lit s : List Char) : Option (List Char) :=
  matchWsLitAux lit s (s.takeWhile pyIsSpace).length

/-- One attempted match of the `clean_description` regex
`\(Min:\s*\d+,\s* Max:\s*\d+\)` at the head of `s`; on success returns
the suffix after the match. -/
def matchMinMax (s : List Char) : Option (List Char) :=
  match matchLit "(Min:".data s with
  | Option.none => Option.none
  | some s1 =>
    let s2 := s1.dropWhile pyIsSpace
    let ds := s2.takeWhile Char.isDigit
    if ds.isEmpty then Option.none
    else
      match matchLit [','] (s2.drop ds.length) with
      | Option.none => Option.none
      | some s4 =>
        match matchWsThenLit " Max:".data s4 with
        | Option.none => Option.none
        | some s5 =>
          let s6 := s5.dropWhile pyIsSpace
          let ds2 := s6.takeWhile Char.isDigit
          if ds2.isEmpty then Option.none
          else matchLit [')'] (s6.drop ds2.length)

/-- Scanner for `clean_description`: delete every occurrence of the
min/max pattern.  A successful match consumes at least five characters,
so fuel equal to the input length suffices. -/
def removeMinMaxFuel : Nat → List Char → List Char
  | _, [] => []
  | 0, s => s
  | fuel + 1, c :: rest =>
    match matchMinMax (c :: rest) with
    | some after => removeMinMaxFuel fuel after
    | Option.none => c :: removeMinMaxFuel fuel rest

/-- `NdfcTemplate.clean_description`: strip `(Min: x, Max: y)` from a
string; `re.sub` raises `TypeError` on non-string input. -/
def clean_description (v : PyVal) : Except PyErr PyVal :=
  match v with
  | .str s => .ok (.str (String.mk (removeMinMaxFuel s.data.length s.data)))
  | _ => .error .typeError

/-- `NdfcTemplate.get_description`: `annotations.Description` with
`KeyError` mapped to "No description available", cleaned, then stripped
of the min/max pattern. -/
def get_description (item : PyVal) : Except PyErr PyVal :=
  let raw : Except PyErr PyVal :=
    match pySubscript item "annotations" with
    | .error .keyError => .ok (.str "No description available")
    | .error e => .error e
    | .ok ann =>
      match pySubscript ann "Description" with
      | .error .keyError => .ok (.str "No description available")
      | .error e => .error e
      | .ok d => .ok d
  match raw with
  | .error e => .error e
  | .ok d =>
    match clean_string d with
    | .error e => .error e
    | .ok c => clean_description c

/-- Truthiness of a float literal under Python `bool()`: only a numeric
zero is falsy ("inf"/"nan" are truthy). -/
def floatTruthy (lit : String) : Bool :=
  let t :=
    match pyStripL lit.data with
    | '+' :: r => r
    | '-' :: r => r
    | u => u
  let low := t.map Char.toLower
  if "inf".data.isPrefixOf low || "nan".data.isPrefixOf low then true
  else (low.takeWhile (· ≠ 'e')).any (fun c => c.isDigit && c ≠ '0')

/-- Python truthiness of a value, as used by `if item:` tests. -/
def pyTruthy : PyVal → Bool
  | .none => false
  | .bool b => b
  | .int n => n ≠ 0
  | .str s => s ≠ ""
  | .float lit => floatTruthy lit
  | .list xs => xs ≠ []
  | .dict fs => fs ≠ []

/-- Python `for item in v:` — the sequence of iterated values: a list
yields its elements, a string its characters, a dict its keys; anything
else (including `None`) raises `TypeError`. -/
def pyIterate (v : PyVal) : Except PyErr (List PyVal) :=
  match v with
  | .list xs => .ok xs
  | .str s => .ok (s.data.map (fun c => .str (String.mk [c])))
  | .dict fs => .ok (fs.map (fun kv => PyVal.str kv.1))
  | _ => .error .typeError

/-- The fixed `typo_keys` table of `NdfcDocBuilder.init_translation`. -/
def typo_keys : List (String × String) :=
  [("DEAFULT_QUEUING_POLICY_CLOUDSCALE", "DEFAULT_QUEUING_POLICY_CLOUDSCALE"),
   ("DEAFULT_QUEUING_POLICY_OTHER", "DEFAULT_QUEUING_POLICY_OTHER"),
   ("DEAFULT_QUEUING_POLICY_R_SERIES", "DEFAULT_QUEUING_POLICY_R_SERIES")]

/-- Python `d[k] = v` on a string-keyed dict: overwrite in place,
preserving insertion order, else append. -/
def dictInsert (fs : List (String × String)) (k t : String) : List (String × String) :=
  if (fs.lookup k).isSome then fs.map (fun kv => if kv.1 = k then (kv.1, t) else kv)
  else fs ++ [(k, t)]

/-- One iteration of the `for item in ...` loop of
`NdfcDocBuilder.init_translation`: skip internal, hidden and falsy-named
parameters; record a translation entry when the (cleaned) name is found
in `typo_keys`. -/
def init_translation_step (item : PyVal) (tr : List (String × String)) :
    Except PyErr (List (String × String)) :=
  if pyTruthy (is_internal item) then .ok tr
  else
    match is_hidden item with
    | .error e => .error e
    | .ok hv =>
      if pyTruthy hv then .ok tr
      else
        match get_name item with
        | .error e => .error e
        | .ok namev =>
          if !pyTruthy namev then .ok tr
          else
            match namev with
            | .str s =>
              match typo_keys.lookup s with
              | some t => .ok (dictInsert tr s t)
              | Option.none => .ok tr
            | _ => .ok tr

/-- The whole `for item in ...` loop of
`NdfcDocBuilder.init_translation`. -/
def init_translation_items : List PyVal → List (String × String) →
    Except PyErr (List (String × String))
  | [], tr => .ok tr
  | item :: rest, tr =>
    match init_translation_step item tr with
    | .error e => .error e
    | .ok tr' => init_translation_items rest tr'

/-- The `_valid_ansible_states` list of `NdfcDocBuilder`. -/
def valid_ansible_states : List String :=
  ["deleted", "merged", "overridden", "query", "replaced"]

/-- The mutable properties of an `NdfcDocBuilder` instance that `commit`
reads.  `template_dict` is `Option.none` while the attribute was never
assigned (Python would raise `AttributeError` on read, since
`_init_properties` does not initialize it); the remaining fields are
initialized to Python `None`.  `template_all` abstracts the
`NdfcTemplates` collaborator as its `get_template_names_by_tag`
method. -/
structure DocBuilderState where
  module_name : PyVal := .none
  module_author : PyVal := .none
  module_default_state : PyVal := .none
  module_states : PyVal := .none
  template_dict : Option PyVal := Option.none
  template_all : Option (String → PyVal) := Option.none

/-- The `module_default_state` property setter: `ValueError` unless the
value is one of the five recognized Ansible states. -/
def module_default_state_set (st : DocBuilderState) (value : PyVal) :
    Except PyErr DocBuilderState :=
  if valid_ansible_states.any (fun s => pyEq value (.str s)) then
    .ok { st with module_default_state := value }
  else .error .valueError

/-- The builder state after running the `module_default_state` setter: a
raised `ValueError` leaves the object unchanged. -/
def stateAfterDefaultStateSet (st : DocBuilderState) (value : PyVal) : DocBuilderState :=
  match module_default_state_set st value with
  | .ok st' => st'
  | .error _ => st

/-- The `module_states` property setter: `ValueError` unless the value is
a list whose members are all recognized Ansible states. -/
def module_states_set (st : DocBuilderState) (value : PyVal) :
    Except PyErr DocBuilderState :=
  match value with
  | .list xs =>
    if xs.all (fun x => valid_ansible_states.any (fun s => pyEq x (.str s))) then
      .ok { st with module_states := .list xs }
    else .error .valueError
  | _ => .error .valueError

/-- The builder state after running the `module_states` setter: a raised
`ValueError` leaves the object unchanged. -/
def stateAfterStatesSet (st : DocBuilderState) (value : PyVal) : DocBuilderState :=
  match module_states_set st value with
  | .ok st' => st'
  | .error _ => st

/-- One `suboptions[name]` entry assembled by `NdfcDocBuilder.commit`. -/
structure Suboption where
  description : List PyVal
  type : PyVal
  required : PyVal
  defaultValue : Option PyVal
  choices : Option PyVal
  deriving DecidableEq

/-- `documentation["options"]["state"]` as assembled by
`add_module_state`. -/
structure StateDoc where
  description : List PyVal
  type : PyVal
  choices : PyVal
  defaultState : PyVal
  deriving DecidableEq

/-- The documentation tree assembled by `NdfcDocBuilder.commit`. -/
structure Documentation where
  moduleName : PyVal
  author : PyVal
  description : List PyVal
  state : StateDoc
  configDescription : List PyVal
  configType : PyVal
  configElements : PyVal
  suboptions : List (PyVal × Suboption)
  deriving DecidableEq

/-- `self.translation.get(raw, raw)`: translate a raw parameter name
through the computed translation table, passing unknown (and non-string)
names through unchanged. -/
def translationGet (tr : List (String × String)) (raw : PyVal) : PyVal :=
  match raw with
  | .str s =>
    match tr.lookup s with
    | some t => .str t
    | Option.none => .str s
  | other => other

/-- Python `suboptions[name] = entry` on a `PyVal`-keyed dict: `==`-equal
key overwrites in place (keeping the first key object), else appends. -/
def pyDictInsert (fs : List (PyVal × Suboption)) (k : PyVal) (v : Suboption) :
    List (PyVal × Suboption) :=
  if fs.any (fun kv => pyEq kv.1 k) then
    fs.map (fun kv => if pyEq kv.1 k then (kv.1, v) else kv)
  else fs ++ [(k, v)]

/-- `suboptions[key]` lookup under Python `==`. -/
def pyDictLookup (fs : List (PyVal × Suboption)) (k : PyVal) : Option Suboption :=
  (fs.find? (fun kv => pyEq kv.1 k)).map (fun kv => kv.2)

/-- The body of `commit`'s per-parameter loop after the skip checks: one
`suboptions[name]` entry.  `tagLookup` is the
`template_all.get_template_names_by_tag` collaborator. -/
def buildSuboption (item : PyVal) (tagLookup : String → PyVal) : Except PyErr Suboption :=
  match get_description item with
  | .error e => .error e
  | .ok desc0 =>
    let desc := if desc0 = PyVal.none || pyEq desc0 (.str "") then
      PyVal.str "No description available" else desc0
    match is_required item with
    | .error e => .error e
    | .ok req =>
      match get_default_value item with
      | .error e => .error e
      | .ok dflt =>
        let dfltField := if dflt ≠ PyVal.none then some dflt else Option.none
        match get_enum item with
        | .error e => .error e
        | .ok (.list choices) =>
          match choices with
          | [] =>
            .ok { description := [desc], type := get_parameter_type item,
                  required := req, defaultValue := dfltField, choices := Option.none }
          | c0 :: _ =>
            if containsSub "TEMPLATES".data (pyStrOfVal c0).data then
              match (splitOnChar '.' (pyStrOfVal c0).data).get? 1 with
              | Option.none => .error .indexError
              | some tagChars =>
                .ok { description := [desc], type := get_parameter_type item,
                      required := req, defaultValue := dfltField,
                      choices := some (tagLookup (String.mk tagChars)) }
            else
              .ok { description := [desc], type := get_parameter_type item,
                    required := req, defaultValue := dfltField,
                    choices := some (.list choices) }
        | .ok _ => .error .typeError

/-- The `for item in ...` loop of `commit`: skip internal, hidden and
falsy-named parameters; build a suboption for the rest, keyed by the
(possibly translated) raw name. -/
def commit_loop (tagLookup : String → PyVal) (translation : List (String × String)) :
    List PyVal → List (PyVal × Suboption) → Except PyErr (List (PyVal × Suboption))
  | [], acc => .ok acc
  | item :: rest, acc =>
    if pyTruthy (is_internal item) then commit_loop tagLookup translation rest acc
    else
      match is_hidden item with
      | .error e => .error e
      | .ok hv =>
        if pyTruthy hv then commit_loop tagLookup translation rest acc
        else
          match pyDictGet item "name" with
          | .error e => .error e
          | .ok nv =>
            if !pyTruthy nv then commit_loop tagLookup translation rest acc
            else
              match buildSuboption item tagLookup with
              | .error e => .error e
              | .ok sub =>
                commit_loop tagLookup translation rest
                  (pyDictInsert acc (translationGet translation nv) sub)

/-- The keys of a `PyVal`-keyed dict as strings, when they all are
strings.  Python's `sorted()` succeeds on any mutually comparable key
set; the parameter names this program sorts are JSON strings, and other
key types are mapped to `TypeError` here. -/
def allStrKeys : List PyVal → Option (List String)
  | [] => some []
  | .str s :: rest => (allStrKeys rest).map (fun t => s :: t)
  | _ => Option.none

/-- `sorted(suboptions.keys())` for string keys (code-point order, as in
Python). -/
def pySortedStrKeys (keys : List PyVal) : Except PyErr (List String) :=
  match allStrKeys keys with
  | some strs => .ok (List.insertionSort (fun a b => a ≤ b) strs)
  | Option.none => .error .typeError

/-- `NdfcDocBuilder.commit`, from `validate_base_prerequisites` through
the final sorted rebuild of `options.config.suboptions`.  The transport
between the builder and the `NdfcTemplates` collaborator is the
`tagLookup` function stored in `template_all`. -/
def commit (st : DocBuilderState) : Except PyErr Documentation :=
  match st.template_dict with
  | Option.none => .error .attributeError
  | some td =>
    if td = PyVal.none then .error .systemExit
    else
      match pyDictGet td "parameters" with
      | .error e => .error e
      | .ok paramsVal =>
        match pyIterate paramsVal with
        | .error e => .error e
        | .ok items =>
          match init_translation_items items [] with
          | .error e => .error e
          | .ok translation =>
            match st.template_all with
            | Option.none => .error .systemExit
            | some tagLookup =>
              if st.module_name = PyVal.none then .error .valueError
              else if st.module_author = PyVal.none then .error .valueError
              else if st.module_states = PyVal.none then .error .valueError
              else if st.module_default_state = PyVal.none then .error .valueError
              else
                match commit_loop tagLookup translation items [] with
                | .error e => .error e
                | .ok subs =>
                  match pySortedStrKeys (subs.map Prod.fst) with
                  | .error e => .error e
                  | .ok sortedKeys =>
                    .ok {
                      moduleName := st.module_name,
                      author := st.module_author,
                      description :=
                        [.str "Manage creation and configuration of NDFC fabrics."],
                      state := {
                        description := [.str "The state of DCNM after module completion"],
                        type := .str "str",
                        choices := st.module_states,
                        defaultState := st.module_default_state },
                      configDescription :=
                        [.str "A list of fabric configuration dictionaries"],
                      configType := .str "list",
                      configElements := .str "dict",
                      suboptions := sortedKeys.filterMap (fun k =>
                        (pyDictLookup subs (.str k)).map
                          (fun v => ((PyVal.str k : PyVal), v))) }

/-- An HTTP response as `NDFC.ndfc_action` inspects it: a status code
and, when the body parses as JSON, the parsed value.  Transport-level
exceptions (which `ndfc_action` turns into process exits) happen before
any response exists and are outside this model. -/
structure HttpResponse where
  status_code : Int
  jsonBody : Option PyVal
  deriving DecidableEq

/-- What `ndfc_action` returns on success: the parsed JSON body, or the
raw response object when the body is not JSON. -/
inductive NdfcResult where
  | parsed (v : PyVal)
  | raw (r : HttpResponse)
  deriving DecidableEq

/-- `NDFC.ndfc_action`, given the request description and the delivered
response: exit on missing mandatory keys or an unrecognized request
type, raise `NdfcRequestError` when the status code is not 200, and
otherwise return the parsed JSON body, falling back to the raw response
when JSON decoding fails. -/
def ndfc_action (params : List (String × PyVal)) (resp : HttpResponse) :
    Except PyErr NdfcResult :=
  if !((params.lookup "url").isSome && (params.lookup "request_type").isSome) then
    .error .systemExit
  else
    match params.lookup "request_type" with
    | Option.none => .error .systemExit
    | some rt =>
      if !(["DELETE", "GET", "POST", "PUT"].any (fun s => pyEq rt (.str s))) then
        .error .systemExit
      else if resp.status_code ≠ 200 then .error .ndfcRequestError
      else
        match resp.jsonBody with
        | some v => .ok (.parsed v)
        | Option.none => .ok (.raw resp)

/-- A string on which one `clean_string` pass is the identity: already
stripped, none of the rewritten literals occur, no whitespace run to
collapse, and the boolean/int/float coercions all decline. -/
def isCleanStr (s : String) : Bool :=
  decide (pyStripL s.data = s.data) &&
  !containsSub "<br />".data s.data &&
  !containsSub "&#39;".data s.data &&
  !containsSub "&#43;".data s.data &&
  !containsSub "&#61;".data s.data &&
  !containsSub "amp;".data s.data &&
  !containsSub ['['] s.data &&
  !containsSub [']'] s.data &&
  !containsSub ['\"'] s.data &&
  !containsSub ['\''] s.data &&
  decide (collapseWs s.data = s.data) &&
  !(pyLower s = "true" || pyLower s = "yes" ||
    pyLower s = "false" || pyLower s = "no") &&
  (pyIntParse s.data).isNone &&
  !pyFloatParses s.data

mutual

/-- The specification's reading of `get_dict_value`: the value attached
to the first occurrence of the key in depth-first document order — each
field of a dict is visited in order, and a field's sub-dict is fully
searched before the next field's key is even looked at. -/
def doc_order_first (item : PyVal) (key : String) : Option PyVal :=
  match item with
  | .dict fs => docOrderFields fs key
  | _ => Option.none

def docOrderFields : List (String × PyVal) → String → Option PyVal
  | [], _ => Option.none
  | (k, v) :: rest, key =>
    if k = key then some v
    else
      match doc_order_first v key with
      | some r => some r
      | Option.none => docOrderFields rest key

end

mutual

/-- Whether `key` occurs as a dict key anywhere in `item`, descending
through dict values (the positions `get_dict_value` can see). -/
def keyOccurs (key : String) : PyVal → Bool
  | .dict fs => keyOccursFields key fs
  | _ => false

def keyOccursFields (key : String) : List (String × PyVal) → Bool
  | [] => false
  | (k, v) :: rest => k == key || keyOccurs key v || keyOccursFields key rest

end

/-- A parameter descriptor that `commit`'s loop does not skip: not
internal, not hidden, and with a truthy `name` value. -/
def survives (item : PyVal) : Prop :=
  pyTruthy (is_internal item) = false ∧
  (∃ hv, is_hidden item = .ok hv ∧ pyTruthy hv = false) ∧
  (∃ nv, pyDictGet item "name" = .ok nv ∧ pyTruthy nv = true)

/-- The name translation the claim describes: through the fixed
`typo_keys` table, unmapped and non-string names passing through. -/
def typoTranslate (raw : PyVal) : PyVal :=
  match raw with
  | .str s =>
    match typo_keys.lookup s with
    | some t => .str t
    | Option.none => .str s
  | other => other

/-- A two-parameter template: one internal descriptor and one ordinary
one (the end-to-end shape named by the spec). -/
def exampleTemplate : PyVal :=
  .dict [("parameters", .list
    [.dict [("name", .str "BBB"), ("annotations", .dict [("IsInternal", .str "true")])],
     .dict [("name", .str "AAA"), ("parameterType", .str "string"),
            ("optional", .str "true")]])]

/-- A fully configured builder holding `exampleTemplate`. -/
def exampleState : DocBuilderState :=
  { module_name := .str "dcnm_fabric",
    module_author := .str "AR",
    module_default_state := .str "merged",
    module_states := .list [.str "merged"],
    template_dict := some exampleTemplate,
    template_all := some (fun _ => .list []) }

/-- The documentation `commit` produces from `exampleState`. -/
def exampleDoc : Documentation :=
  { moduleName := .str "dcnm_fabric",
    author := .str "AR",
    description := [.str "Manage creation and configuration of NDFC fabrics."],
    state := {
      description := [.str "The state of DCNM after module completion"],
      type := .str "str",
      choices := .list [.str "merged"],
      defaultState := .str "merged" },
    configDescription := [.str "A list of fabric configuration dictionaries"],
    configType := .str "list",
    configElements := .str "dict",
    suboptions := [(.str "AAA",
      { description := [.str "No description available"],
        type := .str "str",
        required := .bool false,
        defaultValue := Option.none,
        choices := Option.none })] }

example : clean_string (.str "5") = .ok (.int 5) := by decide
example : clean_string (.str " a  b ") = .ok (.str "a b") := by decide
example : clean_string (.str "TRUE") = .ok (.bool true) := by decide
example : clean_string (.str "1.5") = .ok (.float "1.5") := by decide
example : clean_string .none = .ok (.str "") := by decide
example : clean_string (.str "&#&#39;39;") = .ok (.str "&#39;") := by decide

example :
    get_dict_value (.dict [("a", .dict [("x", .int 1)]), ("x", .int 2)]) "x" = .int 2 := by
  decide

example :
    get_enum (.dict [("annotations", .dict [("Enum", .str "1,2,3")])]) =
      .ok (.list [.int 1, .int 2, .int 3]) := by
  decide

example :
    get_enum (.dict [("annotations", .dict [("Enum", .str "a,b,c")])]) =
      .ok (.list [.str "a", .str "b", .str "c"]) := by
  decide

example :
    get_enum (.dict [("annotations", .dict [("Enum", .str "5")])]) =
      .error .attributeError := by
  decide

example : get_enum (.dict [("name", .str "x")]) = .ok (.list []) := by decide

example :
    is_hidden (.dict [("annotations", .dict [("Section", .str "Hidden stuff")])]) =
      .ok (.bool true) := by
  decide

example : is_hidden (.dict [("name", .str "x")]) = .ok (.bool false) := by decide

example : is_required (.dict [("optional", .str "false")]) = .ok (.bool false) := by decide

example :
    get_description (.dict [("annotations",
      .dict [("Description", .str "hello (Min: 240, Max: 3600) there")])]) =
      .ok (.str "hello  there") := by
  decide

example :
    get_default_value (.dict [("metaProperties", .dict [("defaultValue", .str "m")]),
      ("defaultValue", .str "r")]) = .ok (.str "m") := by
  decide

example : commit exampleState = .ok exampleDoc := by decide

example : ndfc_action [("url", .str "u"), ("request_type", .str "GET")] ⟨200, some (.int 7)⟩ =
    .ok (.parsed (.int 7)) := by decide

/-! ## Helper lemmas -/

theorem replaceAllFuel_of_not_contains (pat rep : List Char) :
    ∀ (fuel : Nat) (s : List Char), containsSub pat s = false →
      replaceAllFuel pat rep fuel s = s := by
  intro fuel
  induction fuel with
  | zero => intro s _; cases s <;> rfl
  | succ n ih =>
    intro s h
    cases s with
    | nil => rfl
    | cons c rest =>
      unfold containsSub at h
      have h1 : pat.isPrefixOf (c :: rest) = false := by
        cases hp : pat.isPrefixOf (c :: rest) <;> simp [hp] at h <;> rfl
      have h2 : containsSub pat rest = false := by
        cases hr : containsSub pat rest <;> simp [hr] at h <;> rfl
      simp [replaceAllFuel, h1, ih rest h2]

theorem replaceAll_of_not_contains (pat rep s : List Char)
    (h : containsSub pat s = false) : replaceAll pat rep s = s :=
  replaceAllFuel_of_not_contains pat rep s.length s h

theorem clean_string_fixed_of_clean (s : String) (h : isCleanStr s = true) :
    clean_string (.str s) = .ok (.str s) := by
  obtain ⟨cs⟩ := s
  simp only [isCleanStr, Bool.and_eq_true, decide_eq_true_eq, Bool.not_eq_true',
    Bool.or_eq_true, not_or, Option.isNone_iff_eq_none] at h
  obtain ⟨⟨⟨⟨⟨⟨⟨⟨⟨⟨⟨⟨⟨hstrip, hbr⟩, h39⟩, h43⟩, h61⟩, hamp⟩, hlb⟩, hrb⟩, hdq⟩,
    hsq⟩, hcol⟩, hmb⟩, hint⟩, hfl⟩ := h
  show coerceCleaned (scrubChars (pyStripL cs)) = .ok (.str (String.mk cs))
  rw [hstrip]
  have hscrub : scrubChars cs = cs := by
    simp only [scrubChars]
    rw [replaceAll_of_not_contains _ _ _ hbr, replaceAll_of_not_contains _ _ _ h39,
      replaceAll_of_not_contains _ _ _ h43, replaceAll_of_not_contains _ _ _ h61,
      replaceAll_of_not_contains _ _ _ hamp, replaceAll_of_not_contains _ _ _ hlb,
      replaceAll_of_not_contains _ _ _ hrb, replaceAll_of_not_contains _ _ _ hdq,
      replaceAll_of_not_contains _ _ _ hsq, hcol]
  rw [hscrub]
  have hmb' : make_bool (PyVal.str (String.mk cs)) = PyVal.str (String.mk cs) := by
    simp only [Bool.or_eq_false_iff, decide_eq_false_iff_not] at hmb
    simp [make_bool, pyStrOfVal, hmb.1.1.1, hmb.1.1.2, hmb.1.2, hmb.2]
  simp [coerceCleaned, hmb', hint, hfl]

theorem coerceCleaned_ne_none (cs : List Char) (c : PyVal)
    (h : coerceCleaned cs = .ok c) : c ≠ PyVal.none := by
  intro hc
  subst hc
  simp only [coerceCleaned] at h
  split at h
  · simp at h
  · split at h
    · simp at h
    · split at h <;> simp at h

theorem clean_string_ne_none (r c : PyVal) (h : clean_string r = .ok c) :
    c ≠ PyVal.none := by
  cases r with
  | none =>
    simp [clean_string] at h
    subst h
    simp
  | str s => exact coerceCleaned_ne_none (scrubChars (pyStripL s.data)) c h
  | bool b => simp [clean_string] at h
  | int n => simp [clean_string] at h
  | float f => simp [clean_string] at h
  | list xs => simp [clean_string] at h
  | dict fs => simp [clean_string] at h

/-- C1: the claim says `is_required` is `False` whenever a default value
exists and otherwise the inverse of the cleaned `optional` flag.  The
code's own docstring says the same, but its guard
`if default is not None or default != ""` is a tautology, so
`is_required` returns `False` even for a descriptor with no default and
`optional` cleanly `false`, where the claim requires `True`. -/
theorem c1_is_required_always_false_exhibit :
    get_default_value (.dict [("optional", .str "false")]) = .ok .none ∧
    make_bool (.str "false") = .bool false ∧
    is_required (.dict [("optional", .str "false")]) = .ok (.bool false) := by
  decide

theorem is_required_ok_is_false (item r : PyVal) (h : is_required item = .ok r) :
    r = .bool false := by
  unfold is_required at h
  cases hd : get_default_value item with
  | error e => rw [hd] at h; simp at h
  | ok d =>
    rw [hd] at h
    have hp : ¬d = PyVal.none ∨ pyEq d (PyVal.str "") = false := by
      cases d <;> simp [pyEq]
    simp [hp] at h
    exact h.symm

/-- C3 counterexample: `clean_string` is not idempotent.  Cleaning the
string "5" yields the integer 5, and a second application raises
`AttributeError` (integers have no `.strip`), so applying `clean_string`
twice differs from applying it once. -/
theorem c3_clean_string_not_idempotent_at_5 :
    clean_string (.str "5") = .ok (.int 5) ∧
    clean_string (.int 5) = .error .attributeError ∧
    (clean_string (.str "5")).bind clean_string = .error .attributeError := by
  decide

/-- C3 (amended): `clean_string` is idempotent on every value whose
cleaned result is a string in fully-cleaned form (already stripped and
collapsed, no rewritten literal occurring, and not coercible to
bool/int/float); in general a second application can raise — the cleaned
result may be a bool, int or float, which has no `.strip` — or rewrite
the string further. -/
theorem c3_clean_string_idempotent_on_clean (v : PyVal) (s : String)
    (h1 : clean_string v = .ok (.str s)) (h2 : isCleanStr s = true) :
    (clean_string v).bind clean_string = clean_string v := by
  have hb : ∀ x : PyVal, (Except.ok x : Except PyErr PyVal).bind clean_string =
      clean_string x := fun _ => rfl
  rw [h1, hb, clean_string_fixed_of_clean s h2]

theorem c3_clean_string_idempotent_on_clean_witness :
    isCleanStr "abc" = true ∧
    (clean_string (.str "abc")).bind clean_string = clean_string (.str "abc") :=
  ⟨by decide, c3_clean_string_idempotent_on_clean (.str "abc") "abc" (by decide) (by decide)⟩

/-- C4: `get_default_value` prefers a present `metaProperties.defaultValue`
(returned cleaned, ignoring any top-level `defaultValue`), falls back to
the cleaned top-level `defaultValue` when the meta location yields
nothing, and returns `None` when both locations yield nothing. -/
theorem c4_get_default_value :
    (∀ item mp r c, pySubscript item "metaProperties" = .ok mp →
        pySubscript mp "defaultValue" = .ok r → r ≠ .str "" →
        clean_string r = .ok c → get_default_value item = .ok c) ∧
    (∀ item r c, get_default_value_meta_properties item = .ok .none →
        pySubscript item "defaultValue" = .ok r →
        clean_string r = .ok c → get_default_value item = .ok c) ∧
    (∀ item, get_default_value_meta_properties item = .ok .none →
        get_default_value_root item = .ok .none → get_default_value item = .ok .none) := by
  refine ⟨?_, ?_, ?_⟩
  · intro item mp r c hmp hr _ hc
    have hmeta : get_default_value_meta_properties item = .ok c := by
      simp only [get_default_value_meta_properties, hmp, hr]
      exact hc
    simp only [get_default_value, hmeta]
    rw [if_pos (clean_string_ne_none r c hc)]
  · intro item r c hmeta hr hc
    simp only [get_default_value, hmeta]
    rw [if_neg (fun hcon => hcon rfl)]
    simp only [get_default_value_root, hr]
    exact hc
  · intro item hmeta hroot
    simp only [get_default_value, hmeta]
    rw [if_neg (fun hcon => hcon rfl)]
    exact hroot

theorem c4_get_default_value_witness :
    get_default_value (.dict [("metaProperties", .dict [("defaultValue", .str "m")]),
      ("defaultValue", .str "r")]) = .ok (.str "m") ∧
    get_default_value (.dict [("defaultValue", .str "r")]) = .ok (.str "r") ∧
    get_default_value (.dict [("name", .str "x")]) = .ok .none :=
  ⟨c4_get_default_value.1 _ (.dict [("defaultValue", .str "m")]) (.str "m") (.str "m")
      (by decide) (by decide) (by decide) (by decide),
   c4_get_default_value.2.1 _ (.str "r") (.str "r") (by decide) (by decide) (by decide),
   c4_get_default_value.2.2 _ (by decide) (by decide)⟩

/-- C5 counterexample: for a descriptor whose Enum annotation is the
single integer-like value "5", cleaning turns it into the integer 5 and
`.split(",")` then raises `AttributeError`, whereas the claim says the
result is the one-element integer list. -/
theorem c5_get_enum_counterexample :
    get_dict_value (.dict [("annotations", .dict [("Enum", .str "5")])]) "Enum" =
      .str "5" ∧
    get_enum (.dict [("annotations", .dict [("Enum", .str "5")])]) =
      .error .attributeError := by
  decide

/-- C5 (amended): when the cleaned Enum value is still a string,
`get_enum` splits it on commas and converts the whole list to integers
exactly when every piece parses as one; an absent Enum key yields the
empty list; the spec's two examples behave as stated.  (When cleaning
converts the Enum value to a bool/int/float, `get_enum` raises
`AttributeError` instead — the counterexample.) -/
theorem c5_get_enum_amended :
    (∀ item s, get_dict_value item "Enum" ≠ .none →
        clean_string (get_dict_value item "Enum") = .ok (.str s) →
        get_enum item = .ok (.list (
          if (splitOnChar ',' s.data).all (fun p => (pyIntParse p).isSome) then
            (splitOnChar ',' s.data).map (fun p => PyVal.int ((pyIntParse p).getD 0))
          else (splitOnChar ',' s.data).map (fun p => PyVal.str (String.mk p))))) ∧
    (∀ item, get_dict_value item "Enum" = .none → get_enum item = .ok (.list [])) ∧
    get_enum (.dict [("annotations", .dict [("Enum", .str "1,2,3")])]) =
      .ok (.list [.int 1, .int 2, .int 3]) ∧
    get_enum (.dict [("annotations", .dict [("Enum", .str "a,b,c")])]) =
      .ok (.list [.str "a", .str "b", .str "c"]) := by
  refine ⟨?_, ?_, by decide, by decide⟩
  · intro item s hne hclean
    cases hg : get_dict_value item "Enum" with
    | none => exact absurd hg hne
    | str s' =>
      rw [hg] at hclean
      simp only [get_enum, hg, hclean]
      split <;> rfl
    | bool b => rw [hg] at hclean; simp [clean_string] at hclean
    | int n => rw [hg] at hclean; simp [clean_string] at hclean
    | float f => rw [hg] at hclean; simp [clean_string] at hclean
    | list xs => rw [hg] at hclean; simp [clean_string] at hclean
    | dict fs => rw [hg] at hclean; simp [clean_string] at hclean
  · intro item hg
    simp only [get_enum, hg]

theorem c5_get_enum_amended_witness :
    get_enum (.dict [("annotations", .dict [("Enum", .str "2,4")])]) =
      .ok (.list [.int 2, .int 4]) ∧
    get_enum (.dict [("name", .str "x")]) = .ok (.list []) := by
  constructor
  · have h := c5_get_enum_amended.1 (.dict [("annotations", .dict [("Enum", .str "2,4")])])
      "2,4" (by decide) (by decide)
    rw [h]
    decide
  · exact c5_get_enum_amended.2.1 _ (by decide)

theorem lookup_none_of_no_occ (key : String) (fs : List (String × PyVal))
    (h : keyOccursFields key fs = false) : fs.lookup key = Option.none := by
  induction fs with
  | nil => rfl
  | cons kv rest ih =>
    obtain ⟨k, v⟩ := kv
    simp only [keyOccursFields, Bool.or_eq_false_iff] at h
    obtain ⟨⟨hk, _⟩, hrest⟩ := h
    simp only [List.lookup]
    have hk' : (key == k) = false := by
      simp only [beq_eq_false_iff_ne, ne_eq] at hk ⊢
      exact fun e => hk e.symm
    rw [hk']
    exact ih hrest

mutual

theorem gdv_none_of_no_occurrence : ∀ (item : PyVal) (key : String),
    keyOccurs key item = false → get_dict_value item key = .none
  | .dict fs, key, h => by
    have hf : keyOccursFields key fs = false := h
    have hl := lookup_none_of_no_occ key fs hf
    have hrec := gdvFields_none_of_no_occurrence fs key hf
    simp only [get_dict_value, hl]
    exact hrec
  | .none, _, _ => rfl
  | .str _, _, _ => rfl
  | .bool _, _, _ => rfl
  | .int _, _, _ => rfl
  | .float _, _, _ => rfl
  | .list _, _, _ => rfl

theorem gdvFields_none_of_no_occurrence : ∀ (fs : List (String × PyVal)) (key : String),
    keyOccursFields key fs = false → gdvFields fs key = .none
  | [], _, _ => rfl
  | (k, v) :: rest, key, h => by
    have hcomp : keyOccurs key v = false ∧ keyOccursFields key rest = false := by
      simp only [keyOccursFields, Bool.or_eq_false_iff] at h
      exact ⟨h.1.2, h.2⟩
    have hrest := gdvFields_none_of_no_occurrence rest key hcomp.2
    cases v with
    | dict gs =>
      have hv := gdv_none_of_no_occurrence (.dict gs) key hcomp.1
      simp only [gdvFields, hv]
      exact hrest
    | none => simp only [gdvFields]; exact hrest
    | str s => simp only [gdvFields]; exact hrest
    | bool b => simp only [gdvFields]; exact hrest
    | int n => simp only [gdvFields]; exact hrest
    | float f => simp only [gdvFields]; exact hrest
    | list xs => simp only [gdvFields]; exact hrest

end

/-- C6 counterexample: the claim says the first occurrence of the key in
depth-first document order wins, but when the key occurs both inside an
earlier nested sub-dict and later at the top level, `get_dict_value`
checks the current dict's own keys before recursing, so the top-level
occurrence wins. -/
theorem c6_get_dict_value_counterexample :
    doc_order_first (.dict [("a", .dict [("x", .int 1)]), ("x", .int 2)]) "x" =
      some (.int 1) ∧
    get_dict_value (.dict [("a", .dict [("x", .int 1)]), ("x", .int 2)]) "x" =
      .int 2 ∧
    PyVal.int 2 ≠ PyVal.int 1 := by
  decide

/-- C6 (amended): `get_dict_value` returns the first match of a search
that consults all keys of the current dict before recursing, in
insertion order, into its dict-valued fields — so a top-level occurrence
always wins — and returns `None` when the key occurs in no dict
reachable through dict values. -/
theorem c6_get_dict_value_amended :
    (∀ (fs : List (String × PyVal)) (key : String) (v : PyVal),
        fs.lookup key = some v → get_dict_value (.dict fs) key = v) ∧
    (∀ (item : PyVal) (key : String), keyOccurs key item = false →
        get_dict_value item key = .none) := by
  constructor
  · intro fs key v hl
    simp only [get_dict_value, hl]
  · exact gdv_none_of_no_occurrence

theorem c6_get_dict_value_amended_witness :
    get_dict_value (.dict [("a", .dict [("x", .int 1)]), ("x", .int 2)]) "x" =
      .int 2 ∧
    get_dict_value (.dict [("a", .int 1)]) "x" = .none :=
  ⟨c6_get_dict_value_amended.1 _ "x" _ (by decide),
   c6_get_dict_value_amended.2 _ "x" (by decide)⟩

/-- C8: for every descriptor whose Section annotation cleans to a string
(the empty string when the annotation is absent, since
`clean_string(None) = ""`), `is_hidden` returns `True` exactly when that
cleaned value contains the literal substring "Hidden". -/
theorem c8_is_hidden (item : PyVal) (s : String)
    (h : clean_string (get_dict_value item "Section") = .ok (.str s)) :
    (is_hidden item = .ok (.bool true)) ↔ containsSub "Hidden".data s.data = true := by
  simp only [is_hidden, get_section, h]
  simp

theorem c8_is_hidden_witness :
    (is_hidden (.dict [("annotations", .dict [("Section", .str "Hidden#!")])]) =
      .ok (.bool true)) ∧
    ¬(is_hidden (.dict [("name", .str "x")]) = .ok (.bool true)) :=
  ⟨(c8_is_hidden _ "Hidden#!" (by decide)).mpr (by decide),
   fun hcontra => absurd ((c8_is_hidden (.dict [("name", .str "x")]) "" (by decide)).mp
     hcontra) (by decide)⟩

/-- C9 counterexample: the claim says `ndfc_action` raises exactly on
statuses outside the 2xx range, but the code tests `status_code != 200`,
so a 201 response with a JSON body raises `NdfcRequestError` instead of
returning the parsed body. -/
theorem c9_ndfc_action_counterexample :
    ndfc_action [("url", .str "https://c/t"), ("request_type", .str "GET")]
      ⟨201, some (.int 1)⟩ = .error .ndfcRequestError ∧
    ((200 : Int) ≤ 201 ∧ (201 : Int) < 300) := by
  decide

/-- C9 (amended): for a request with the mandatory keys and a recognized
request type, `ndfc_action` raises `NdfcRequestError` exactly when the
status code differs from 200 (2xx statuses other than 200 included); on
200 it returns the parsed JSON body, falling back to the raw response
object when the body does not parse as JSON. -/
theorem c9_ndfc_action_amended (params : List (String × PyVal)) (resp : HttpResponse)
    (rt : PyVal)
    (h1 : (params.lookup "url").isSome = true)
    (h2 : params.lookup "request_type" = some rt)
    (h3 : (["DELETE", "GET", "POST", "PUT"].any fun s => pyEq rt (.str s)) = true) :
    ndfc_action params resp =
      if resp.status_code ≠ 200 then .error .ndfcRequestError
      else
        match resp.jsonBody with
        | some v => .ok (.parsed v)
        | Option.none => .ok (.raw resp) := by
  simp only [ndfc_action, h1, h2, h3]
  simp

theorem c9_ndfc_action_amended_witness :
    ndfc_action [("url", .str "u"), ("request_type", .str "GET")] ⟨404, Option.none⟩ =
      .error .ndfcRequestError ∧
    ndfc_action [("url", .str "u"), ("request_type", .str "GET")] ⟨200, some (.int 7)⟩ =
      .ok (.parsed (.int 7)) ∧
    ndfc_action [("url", .str "u"), ("request_type", .str "GET")] ⟨200, Option.none⟩ =
      .ok (.raw ⟨200, Option.none⟩) :=
  ⟨(c9_ndfc_action_amended _ _ (.str "GET") (by decide) (by decide) (by decide)).trans
      (by decide),
   (c9_ndfc_action_amended _ _ (.str "GET") (by decide) (by decide) (by decide)).trans
      (by decide),
   (c9_ndfc_action_amended _ _ (.str "GET") (by decide) (by decide) (by decide)).trans
      (by decide)⟩

/-- C10: the `module_states` setter raises `ValueError` on every
non-list value and on every list containing an element outside the five
recognized states, leaving the stored value unchanged in both error
cases, and stores the list exactly as given when every element is
recognized. -/
theorem c10_module_states_setter :
    (∀ (st : DocBuilderState) (v : PyVal), (∀ xs, v ≠ .list xs) →
        module_states_set st v = .error .valueError ∧ stateAfterStatesSet st v = st) ∧
    (∀ (st : DocBuilderState) (xs : List PyVal) (x : PyVal), x ∈ xs →
        (valid_ansible_states.any fun s => pyEq x (.str s)) = false →
        module_states_set st (.list xs) = .error .valueError ∧
        stateAfterStatesSet st (.list xs) = st) ∧
    (∀ (st : DocBuilderState) (xs : List PyVal),
        (∀ x ∈ xs, (valid_ansible_states.any fun s => pyEq x (.str s)) = true) →
        module_states_set st (.list xs) = .ok { st with module_states := .list xs }) := by
  refine ⟨?_, ?_, ?_⟩
  · intro st v hv
    have he : module_states_set st v = .error .valueError := by
      cases v with
      | list xs => exact absurd rfl (hv xs)
      | none => rfl
      | str s => rfl
      | bool b => rfl
      | int n => rfl
      | float f => rfl
      | dict fs => rfl
    exact ⟨he, by simp [stateAfterStatesSet, he]⟩
  · intro st xs x hx hbad
    have hall : (xs.all fun y => valid_ansible_states.any fun s => pyEq y (.str s)) =
        false := by
      apply List.all_eq_false.mpr
      exact ⟨x, hx, by simp [hbad]⟩
    have he : module_states_set st (.list xs) = .error .valueError := by
      simp [module_states_set, hall]
    exact ⟨he, by simp [stateAfterStatesSet, he]⟩
  · intro st xs hall
    have ht : (xs.all fun y => valid_ansible_states.any fun s => pyEq y (.str s)) =
        true := List.all_eq_true.mpr hall
    simp [module_states_set, ht]

theorem c10_module_states_setter_witness :
    module_states_set {} (.str "merged") = .error .valueError ∧
    stateAfterStatesSet {} (.str "merged") = {} ∧
    module_states_set {} (.list [.str "merged", .str "bogus"]) = .error .valueError ∧
    module_states_set {} (.list [.str "deleted", .str "merged"]) =
      .ok { module_states := .list [.str "deleted", .str "merged"] } :=
  ⟨(c10_module_states_setter.1 {} (.str "merged") (fun _ h => PyVal.noConfusion h)).1,
   (c10_module_states_setter.1 {} (.str "merged") (fun _ h => PyVal.noConfusion h)).2,
   (c10_module_states_setter.2.1 {} [.str "merged", .str "bogus"] (.str "bogus")
      (by decide) (by decide)).1,
   c10_module_states_setter.2.2 {} [.str "deleted", .str "merged"] (by decide)⟩

theorem commit_ok_requires (st : DocBuilderState) (doc : Documentation)
    (hok : commit st = .ok doc) :
    st.module_name ≠ .none ∧ st.module_author ≠ .none ∧
    st.module_states ≠ .none ∧ st.module_default_state ≠ .none := by
  unfold commit at hok
  repeat' split at hok
  all_goals simp_all

/-- C7: setting `module_default_state` to a value outside the fixed
state set raises `ValueError` immediately and leaves the stored state
unchanged; setting it to a member stores the value; and `commit` cannot
succeed while any of `module_name`, `module_author`, `module_states` or
`module_default_state` is still unset. -/
theorem c7_default_state_setter_and_commit :
    (∀ (st : DocBuilderState) (v : PyVal),
        (valid_ansible_states.any fun s => pyEq v (.str s)) = false →
        module_default_state_set st v = .error .valueError ∧
        stateAfterDefaultStateSet st v = st) ∧
    (∀ (st : DocBuilderState) (v : PyVal),
        (valid_ansible_states.any fun s => pyEq v (.str s)) = true →
        module_default_state_set st v = .ok { st with module_default_state := v }) ∧
    (∀ st : DocBuilderState,
        st.module_name = .none ∨ st.module_author = .none ∨
          st.module_states = .none ∨ st.module_default_state = .none →
        ∀ doc, commit st ≠ .ok doc) := by
  refine ⟨?_, ?_, ?_⟩
  · intro st v hbad
    have he : module_default_state_set st v = .error .valueError := by
      simp [module_default_state_set, hbad]
    exact ⟨he, by simp [stateAfterDefaultStateSet, he]⟩
  · intro st v hgood
    simp [module_default_state_set, hgood]
  · intro st h doc hok
    obtain ⟨h1, h2, h3, h4⟩ := commit_ok_requires st doc hok
    rcases h with h | h | h | h
    · exact h1 h
    · exact h2 h
    · exact h3 h
    · exact h4 h

theorem c7_default_state_setter_and_commit_witness :
    module_default_state_set {} (.str "bogus") = .error .valueError ∧
    stateAfterDefaultStateSet {} (.str "bogus") = {} ∧
    module_default_state_set {} (.str "merged") =
      .ok { module_default_state := .str "merged" } ∧
    commit { module_author := .str "AR" } ≠ .ok exampleDoc :=
  ⟨(c7_default_state_setter_and_commit.1 {} (.str "bogus") (by decide)).1,
   (c7_default_state_setter_and_commit.1 {} (.str "bogus") (by decide)).2,
   c7_default_state_setter_and_commit.2.1 {} (.str "merged") (by decide),
   c7_default_state_setter_and_commit.2.2 { module_author := .str "AR" }
     (Or.inl rfl) exampleDoc⟩

theorem pyEq_str_left (s : String) (k : PyVal) (h : pyEq (.str s) k = true) :
    k = .str s := by
  cases k <;> simp_all [pyEq]

theorem pyEq_str_refl (s : String) : pyEq (.str s) (.str s) = true := by
  simp [pyEq]

theorem pyDictInsert_keys (fs : List (PyVal × Suboption)) (k : PyVal) (v : Suboption) :
    ((pyDictInsert fs k v).map Prod.fst = fs.map Prod.fst ∧
      ∃ k₁ ∈ fs.map Prod.fst, pyEq k₁ k = true) ∨
    ((pyDictInsert fs k v).map Prod.fst = fs.map Prod.fst ++ [k] ∧
      ∀ k₁ ∈ fs.map Prod.fst, pyEq k₁ k = false) := by
  unfold pyDictInsert
  by_cases h : (fs.any fun kv => pyEq kv.1 k) = true
  · left
    rw [if_pos h]
    constructor
    · rw [List.map_map]
      have he : (Prod.fst ∘ fun kv : PyVal × Suboption =>
          if pyEq kv.1 k = true then (kv.1, v) else kv) = Prod.fst := by
        funext kv
        by_cases hkv : pyEq kv.1 k = true <;> simp [hkv, Function.comp]
      rw [he]
    · obtain ⟨kv, hkv, hpy⟩ := List.any_eq_true.mp h
      exact ⟨kv.1, List.mem_map_of_mem Prod.fst hkv, hpy⟩
  · right
    rw [if_neg h]
    refine ⟨by simp, ?_⟩
    intro k₁ hk₁
    obtain ⟨kv, hkv, hfst⟩ := List.mem_map.mp hk₁
    have hh := List.any_eq_true.not.mp h
    push_neg at hh
    have hfalse : pyEq kv.1 k = false := Bool.eq_false_iff.mpr (hh kv hkv)
    rw [← hfst]
    exact hfalse

theorem allStrKeys_eq (ks : List PyVal) (strs : List String)
    (h : allStrKeys ks = some strs) : ks = strs.map PyVal.str := by
  induction ks generalizing strs with
  | nil =>
    simp [allStrKeys] at h
    subst h
    rfl
  | cons k rest ih =>
    cases k with
    | str s =>
      simp only [allStrKeys] at h
      cases hr : allStrKeys rest with
      | none => rw [hr] at h; simp at h
      | some t =>
        rw [hr] at h
        simp at h
        subst h
        simp [ih t hr]
    | none => simp [allStrKeys] at h
    | bool b => simp [allStrKeys] at h
    | int n => simp [allStrKeys] at h
    | float f => simp [allStrKeys] at h
    | list xs => simp [allStrKeys] at h
    | dict fs => simp [allStrKeys] at h

theorem pyDictLookup_isSome_of_mem (subs : List (PyVal × Suboption)) (s : String)
    (h : PyVal.str s ∈ subs.map Prod.fst) :
    ∃ v, pyDictLookup subs (.str s) = some v := by
  obtain ⟨kv, hkv, hfst⟩ := List.mem_map.mp h
  have hfind : (subs.find? fun kv => pyEq kv.1 (.str s)).isSome = true := by
    apply List.find?_isSome.mpr
    refine ⟨kv, hkv, ?_⟩
    rw [hfst]
    exact pyEq_str_refl s
  obtain ⟨w, hw⟩ := Option.isSome_iff_exists.mp hfind
  exact ⟨w.2, by simp [pyDictLookup, hw]⟩

theorem filterMap_lookup_keys (subs : List (PyVal × Suboption)) (ks : List String)
    (hks : ∀ k ∈ ks, ∃ v, pyDictLookup subs (.str k) = some v) :
    (ks.filterMap (fun k =>
        (pyDictLookup subs (.str k)).map (fun v => ((PyVal.str k : PyVal), v)))).map
      Prod.fst = ks.map PyVal.str := by
  induction ks with
  | nil => rfl
  | cons k rest ih =>
    obtain ⟨v, hv⟩ := hks k (List.mem_cons_self k rest)
    simp [List.filterMap_cons, hv,
      ih (fun x hx => hks x (List.mem_cons_of_mem k hx))]

theorem map_overwrite_lookup (fs : List (String × String)) (k t k' : String) :
    (fs.map (fun kv => if kv.1 = k then (kv.1, t) else kv)).lookup k' =
      if k' = k then (fs.lookup k).map (fun _ => t) else fs.lookup k' := by
  induction fs with
  | nil => by_cases h : k' = k <;> simp [List.lookup, h]
  | cons kv rest ih =>
    obtain ⟨k₀, v₀⟩ := kv
    simp only [List.map_cons]
    by_cases h₀ : k₀ = k
    · subst h₀
      rw [if_pos rfl]
      by_cases h' : k' = k₀
      · subst h'
        have hb : (k' == k') = true := by simp
        simp [List.lookup, hb]
      · have hb : (k' == k₀) = false := by simpa using h'
        simp only [List.lookup, hb, if_neg h']
        rw [ih, if_neg h']
    · rw [if_neg h₀]
      by_cases h' : k' = k₀
      · subst h'
        have hb : (k' == k') = true := by simp
        have hk : ¬k' = k := h₀
        simp only [List.lookup, hb, if_neg hk]
      · have hb : (k' == k₀) = false := by simpa using h'
        have hb₂ : (k == k₀) = false := by
          simpa using fun e => h₀ e.symm
        simp only [List.lookup, hb, hb₂]
        exact ih

theorem lookup_append_single_other (fs : List (String × String)) (k t k' : String)
    (h' : k' ≠ k) : (fs ++ [(k, t)]).lookup k' = fs.lookup k' := by
  induction fs with
  | nil =>
    have hb : (k' == k) = false := by simpa using h'
    simp [List.lookup, hb]
  | cons kv rest ih =>
    obtain ⟨k₀, v₀⟩ := kv
    by_cases h₀ : k' = k₀
    · have hb : (k' == k₀) = true := by simpa using h₀
      simp [List.lookup, hb]
    · have hb : (k' == k₀) = false := by simpa using h₀
      simp [List.lookup, hb, ih]

theorem lookup_append_single_self (fs : List (String × String)) (k t : String)
    (hnone : fs.lookup k = Option.none) : (fs ++ [(k, t)]).lookup k = some t := by
  induction fs with
  | nil => simp [List.lookup]
  | cons kv rest ih =>
    obtain ⟨k₀, v₀⟩ := kv
    simp only [List.lookup] at hnone
    cases hb : (k == k₀) with
    | true => rw [hb] at hnone; simp at hnone
    | false =>
      rw [hb] at hnone
      simp only [List.cons_append, List.lookup, hb]
      exact ih hnone

theorem dictInsert_lookup (fs : List (String × String)) (k t k' : String) :
    (dictInsert fs k t).lookup k' = if k' = k then some t else fs.lookup k' := by
  unfold dictInsert
  by_cases hmem : (fs.lookup k).isSome = true
  · rw [if_pos hmem, map_overwrite_lookup]
    by_cases h' : k' = k
    · rw [if_pos h', if_pos h']
      obtain ⟨v, hv⟩ := Option.isSome_iff_exists.mp hmem
      rw [hv]
      rfl
    · rw [if_neg h', if_neg h']
  · rw [if_neg hmem]
    have hnone : fs.lookup k = Option.none :=
      Option.not_isSome_iff_eq_none.mp (by simpa using hmem)
    by_cases h' : k' = k
    · subst h'
      rw [if_pos rfl]
      exact lookup_append_single_self fs k' t hnone
    · rw [if_neg h']
      exact lookup_append_single_other fs k t k' h'

theorem typo_lookup_cases (s t : String) (h : typo_keys.lookup s = some t) :
    (s = "DEAFULT_QUEUING_POLICY_CLOUDSCALE" ∧
      t = "DEFAULT_QUEUING_POLICY_CLOUDSCALE") ∨
    (s = "DEAFULT_QUEUING_POLICY_OTHER" ∧ t = "DEFAULT_QUEUING_POLICY_OTHER") ∨
    (s = "DEAFULT_QUEUING_POLICY_R_SERIES" ∧
      t = "DEFAULT_QUEUING_POLICY_R_SERIES") := by
  simp only [typo_keys, List.lookup] at h
  cases hb1 : s == "DEAFULT_QUEUING_POLICY_CLOUDSCALE" with
  | true =>
    rw [hb1] at h
    simp at h hb1
    exact Or.inl ⟨hb1, h.symm⟩
  | false =>
    rw [hb1] at h
    cases hb2 : s == "DEAFULT_QUEUING_POLICY_OTHER" with
    | true =>
      rw [hb2] at h
      simp at h hb2
      exact Or.inr (Or.inl ⟨hb2, h.symm⟩)
    | false =>
      rw [hb2] at h
      cases hb3 : s == "DEAFULT_QUEUING_POLICY_R_SERIES" with
      | true =>
        rw [hb3] at h
        simp at h hb3
        exact Or.inr (Or.inr ⟨hb3, h.symm⟩)
      | false =>
        rw [hb3] at h
        simp at h

theorem pyDictGet_str_subscript (item : PyVal) (key : String) (s : String)
    (h : pyDictGet item key = .ok (.str s)) : pySubscript item key = .ok (.str s) := by
  cases item with
  | dict fs =>
    simp only [pyDictGet] at h
    cases hl : fs.lookup key with
    | none => rw [hl] at h; simp at h
    | some v =>
      rw [hl] at h
      simp at h
      simp only [pySubscript, hl, h]
  | none => simp [pyDictGet] at h
  | str s' => simp [pyDictGet] at h
  | bool b => simp [pyDictGet] at h
  | int n => simp [pyDictGet] at h
  | float f => simp [pyDictGet] at h
  | list xs => simp [pyDictGet] at h

theorem clean_string_fixes_typo_key (s t : String) (h : typo_keys.lookup s = some t) :
    clean_string (.str s) = .ok (.str s) ∧ pyTruthy (.str s) = true := by
  rcases typo_lookup_cases s t h with ⟨hs, _⟩ | ⟨hs, _⟩ | ⟨hs, _⟩ <;>
    (subst hs; exact ⟨by decide, by decide⟩)

theorem init_translation_step_sound (item : PyVal) (tr₀ tr' : List (String × String))
    (h : init_translation_step item tr₀ = .ok tr')
    (h0 : ∀ k t, tr₀.lookup k = some t → typo_keys.lookup k = some t) :
    ∀ k t, tr'.lookup k = some t → typo_keys.lookup k = some t := by
  unfold init_translation_step at h
  split at h
  · injection h with h; subst h; exact h0
  · split at h
    · simp at h
    · split at h
      · injection h with h; subst h; exact h0
      · split at h
        · simp at h
        · split at h
          · injection h with h; subst h; exact h0
          · split at h
            · split at h
              · next _ t₁ heq =>
                injection h with h
                subst h
                intro k t hk
                rw [dictInsert_lookup] at hk
                split at hk
                · next hks =>
                  subst hks
                  injection hk with hk
                  subst hk
                  exact heq
                · exact h0 k t hk
              · injection h with h; subst h; exact h0
            · injection h with h; subst h; exact h0

theorem init_translation_step_preserve (item : PyVal) (tr₀ tr' : List (String × String))
    (s t : String) (h : init_translation_step item tr₀ = .ok tr')
    (hs : tr₀.lookup s = some t) (ht : typo_keys.lookup s = some t) :
    tr'.lookup s = some t := by
  unfold init_translation_step at h
  split at h
  · injection h with h; subst h; exact hs
  · split at h
    · simp at h
    · split at h
      · injection h with h; subst h; exact hs
      · split at h
        · simp at h
        · split at h
          · injection h with h; subst h; exact hs
          · split at h
            · split at h
              · next _ t₁ heq =>
                injection h with h
                subst h
                rw [dictInsert_lookup]
                split
                · next hss =>
                  rw [hss] at ht
                  rw [ht] at heq
                  injection heq with heq
                  rw [heq]
                · exact hs
              · injection h with h; subst h; exact hs
            · injection h with h; subst h; exact hs

theorem init_translation_step_inserts (item : PyVal) (tr₀ tr' : List (String × String))
    (s t : String) (h : init_translation_step item tr₀ = .ok tr')
    (hsurv : survives item) (hget : pyDictGet item "name" = .ok (.str s))
    (ht : typo_keys.lookup s = some t) :
    tr'.lookup s = some t := by
  obtain ⟨hint, ⟨hv, hhid, hvf⟩, nv, hget', htruthy⟩ := hsurv
  have hnv : nv = .str s := by
    rw [hget'] at hget
    exact Except.ok.inj hget
  subst hnv
  have hsub : pySubscript item "name" = .ok (.str s) :=
    pyDictGet_str_subscript item "name" s hget
  obtain ⟨hclean, htr⟩ := clean_string_fixes_typo_key s t ht
  have hname : get_name item = .ok (.str s) := by
    simp only [get_name, hsub]
    exact hclean
  unfold init_translation_step at h
  rw [if_neg (by simp [hint])] at h
  simp only [hhid] at h
  rw [if_neg (by simp [hvf])] at h
  simp only [hname, htr, Bool.not_true, Bool.false_eq_true, if_false, ht] at h
  rw [Except.ok.injEq] at h
  subst h
  rw [dictInsert_lookup, if_pos rfl]

theorem init_translation_sound : ∀ (items : List PyVal) (tr₀ tr : List (String × String)),
    init_translation_items items tr₀ = .ok tr →
    (∀ k t, tr₀.lookup k = some t → typo_keys.lookup k = some t) →
    ∀ k t, tr.lookup k = some t → typo_keys.lookup k = some t := by
  intro items
  induction items with
  | nil =>
    intro tr₀ tr h h0
    simp only [init_translation_items] at h
    injection h with h
    subst h
    exact h0
  | cons item rest ih =>
    intro tr₀ tr h h0
    simp only [init_translation_items] at h
    cases hstep : init_translation_step item tr₀ with
    | error e => rw [hstep] at h; simp at h
    | ok tr₁ =>
      rw [hstep] at h
      exact ih tr₁ tr h (init_translation_step_sound item tr₀ tr₁ hstep h0)

theorem init_translation_preserve :
    ∀ (items : List PyVal) (tr₀ tr : List (String × String)) (s t : String),
      init_translation_items items tr₀ = .ok tr →
      tr₀.lookup s = some t → typo_keys.lookup s = some t →
      tr.lookup s = some t := by
  intro items
  induction items with
  | nil =>
    intro tr₀ tr s t h hs _
    simp only [init_translation_items] at h
    injection h with h
    subst h
    exact hs
  | cons item rest ih =>
    intro tr₀ tr s t h hs ht
    simp only [init_translation_items] at h
    cases hstep : init_translation_step item tr₀ with
    | error e => rw [hstep] at h; simp at h
    | ok tr₁ =>
      rw [hstep] at h
      exact ih tr₁ tr s t h
        (init_translation_step_preserve item tr₀ tr₁ s t hstep hs ht) ht

theorem init_translation_has_survivor_key :
    ∀ (items : List PyVal) (tr₀ tr : List (String × String)) (item : PyVal)
      (s t : String),
      init_translation_items items tr₀ = .ok tr → item ∈ items →
      survives item → pyDictGet item "name" = .ok (.str s) →
      typo_keys.lookup s = some t → tr.lookup s = some t := by
  intro items
  induction items with
  | nil => intro _ _ _ _ _ _ hmem; cases hmem
  | cons head rest ih =>
    intro tr₀ tr item s t h hmem hsurv hget ht
    simp only [init_translation_items] at h
    cases hstep : init_translation_step head tr₀ with
    | error e => rw [hstep] at h; simp at h
    | ok tr₁ =>
      rw [hstep] at h
      rcases List.mem_cons.mp hmem with heq | hmem'
      · subst heq
        exact init_translation_preserve rest tr₁ tr s t h
          (init_translation_step_inserts item tr₀ tr₁ s t hstep hsurv hget ht) ht
      · exact ih tr₁ tr item s t h hmem' hsurv hget ht

theorem translationGet_eq_typoTranslate (items : List PyVal)
    (tr : List (String × String)) (hinit : init_translation_items items [] = .ok tr)
    (item : PyVal) (hmem : item ∈ items) (hsurv : survives item)
    (nv : PyVal) (hget : pyDictGet item "name" = .ok nv) :
    translationGet tr nv = typoTranslate nv := by
  cases nv with
  | str s =>
    simp only [translationGet, typoTranslate]
    cases htk : typo_keys.lookup s with
    | some t =>
      have htr := init_translation_has_survivor_key items [] tr item s t hinit
        hmem hsurv hget htk
      rw [htr]
    | none =>
      cases htr : tr.lookup s with
      | none => rfl
      | some t' =>
        have := init_translation_sound items [] tr hinit
          (fun k t hk => by simp [List.lookup] at hk) s t' htr
        rw [this] at htk
        cases htk
  | none => rfl
  | bool b => rfl
  | int n => rfl
  | float f => rfl
  | list xs => rfl
  | dict fs => rfl

theorem exists_cons_of_not_head (P : PyVal → Prop) (item : PyVal) (rest : List PyVal)
    (hno : ¬P item) : (∃ i ∈ item :: rest, P i) ↔ ∃ i ∈ rest, P i := by
  constructor
  · rintro ⟨i, hi, hp⟩
    rcases List.mem_cons.mp hi with rfl | hi'
    · exact absurd hp hno
    · exact ⟨i, hi', hp⟩
  · rintro ⟨i, hi, hp⟩
    exact ⟨i, List.mem_cons_of_mem _ hi, hp⟩

theorem commit_loop_keys (tagLookup : String → PyVal) (tr : List (String × String)) :
    ∀ (items : List PyVal) (acc subs : List (PyVal × Suboption)),
      commit_loop tagLookup tr items acc = .ok subs →
      (∀ p ∈ subs.map Prod.fst, ∃ s, p = PyVal.str s) →
      (∀ p ∈ acc.map Prod.fst, ∃ s, p = PyVal.str s) ∧
      (List.Nodup (acc.map Prod.fst) → List.Nodup (subs.map Prod.fst)) ∧
      ∀ k : PyVal, k ∈ subs.map Prod.fst ↔
        (k ∈ acc.map Prod.fst ∨
         ∃ i ∈ items, survives i ∧
           ∃ nv, pyDictGet i "name" = .ok nv ∧ k = translationGet tr nv) := by
  intro items
  induction items with
  | nil =>
    intro acc subs h hstrsubs
    simp only [commit_loop] at h
    rw [Except.ok.injEq] at h
    subst h
    refine ⟨hstrsubs, fun hn => hn, fun k => ?_⟩
    constructor
    · exact fun hk => Or.inl hk
    · rintro (hk | ⟨i, hi, _⟩)
      · exact hk
      · cases hi
  | cons item rest ih =>
    intro acc subs h hstrsubs
    simp only [commit_loop] at h
    by_cases hint : pyTruthy (is_internal item) = true
    · rw [if_pos hint] at h
      obtain ⟨hstr, hnodup, hiff⟩ := ih acc subs h hstrsubs
      refine ⟨hstr, hnodup, fun k => ?_⟩
      rw [hiff k,
        exists_cons_of_not_head
          (fun i => survives i ∧ ∃ nv, pyDictGet i "name" = .ok nv ∧
            k = translationGet tr nv) item rest
          (fun hp => by rw [hp.1.1] at hint; cases hint)]
    · rw [if_neg hint] at h
      cases hhid : is_hidden item with
      | error e => simp only [hhid] at h; simp at h
      | ok hv =>
        simp only [hhid] at h
        by_cases hhv : pyTruthy hv = true
        · rw [if_pos hhv] at h
          obtain ⟨hstr, hnodup, hiff⟩ := ih acc subs h hstrsubs
          refine ⟨hstr, hnodup, fun k => ?_⟩
          rw [hiff k,
            exists_cons_of_not_head
              (fun i => survives i ∧ ∃ nv, pyDictGet i "name" = .ok nv ∧
                k = translationGet tr nv) item rest ?_]
          rintro ⟨⟨_, ⟨hv', hh', hf'⟩, _⟩, _⟩
          rw [hhid] at hh'
          rw [Except.ok.injEq] at hh'
          rw [← hh'] at hf'
          rw [hf'] at hhv
          cases hhv
        · rw [if_neg hhv] at h
          cases hget : pyDictGet item "name" with
          | error e => simp only [hget] at h; simp at h
          | ok nv =>
            simp only [hget] at h
            by_cases hnv : pyTruthy nv = true
            · rw [if_neg (by simp [hnv])] at h
              cases hbuild : buildSuboption item tagLookup with
              | error e => simp only [hbuild] at h; simp at h
              | ok sub =>
                simp only [hbuild] at h
                obtain ⟨hstr', hnodup', hiff'⟩ :=
                  ih (pyDictInsert acc (translationGet tr nv) sub) subs h hstrsubs
                have hsurvitem : survives item := by
                  refine ⟨Bool.eq_false_iff.mpr hint, ⟨hv, hhid, ?_⟩, nv, hget, hnv⟩
                  exact Bool.eq_false_iff.mpr hhv
                rcases pyDictInsert_keys acc (translationGet tr nv) sub with
                  ⟨hkeq, k₁, hk₁, hpy⟩ | ⟨hkeq, hnomatch⟩
                · obtain ⟨s₁, rfl⟩ := hstr' k₁ (by rw [hkeq]; exact hk₁)
                  have htgt : translationGet tr nv = .str s₁ := pyEq_str_left s₁ _ hpy
                  refine ⟨fun p hp => hstr' p (by rw [hkeq]; exact hp),
                    fun hnacc => hnodup' (by rw [hkeq]; exact hnacc), fun k => ?_⟩
                  rw [hiff' k, hkeq]
                  constructor
                  · rintro (hk | ⟨i, hi, hs⟩)
                    · exact Or.inl hk
                    · exact Or.inr ⟨i, List.mem_cons_of_mem item hi, hs⟩
                  · rintro (hk | ⟨i, hi, hsurv, nv', hget', hkeq'⟩)
                    · exact Or.inl hk
                    · rcases List.mem_cons.mp hi with heq | hi'
                      · subst heq
                        rw [hget] at hget'
                        rw [Except.ok.injEq] at hget'
                        rw [← hget'] at hkeq'
                        rw [htgt] at hkeq'
                        subst hkeq'
                        exact Or.inl hk₁
                      · exact Or.inr ⟨i, hi', hsurv, nv', hget', hkeq'⟩
                · have hstr_acc : ∀ p ∈ acc.map Prod.fst, ∃ s, p = PyVal.str s :=
                    fun p hp => hstr' p (by rw [hkeq]; exact List.mem_append_left _ hp)
                  obtain ⟨sₜ, htgt⟩ := hstr' (translationGet tr nv)
                    (by rw [hkeq]; exact List.mem_append_right _ (List.mem_singleton_self _))
                  have htgtnot : translationGet tr nv ∉ acc.map Prod.fst := by
                    intro hmem
                    have h2 := hnomatch _ hmem
                    rw [htgt] at h2
                    rw [pyEq_str_refl] at h2
                    cases h2
                  refine ⟨hstr_acc, fun hnacc => ?_, fun k => ?_⟩
                  · apply hnodup'
                    rw [hkeq, List.nodup_append]
                    refine ⟨hnacc, List.nodup_singleton _, fun a ha hb => ?_⟩
                    rw [List.mem_singleton] at hb
                    subst hb
                    exact htgtnot ha
                  · rw [hiff' k, hkeq]
                    constructor
                    · rintro (hk | ⟨i, hi, hs⟩)
                      · rcases List.mem_append.mp hk with hk' | hk'
                        · exact Or.inl hk'
                        · rw [List.mem_singleton] at hk'
                          subst hk'
                          exact Or.inr ⟨item, List.mem_cons_self _ _, hsurvitem,
                            nv, hget, rfl⟩
                      · exact Or.inr ⟨i, List.mem_cons_of_mem item hi, hs⟩
                    · rintro (hk | ⟨i, hi, hsurv, nv', hget', hkeq'⟩)
                      · exact Or.inl (List.mem_append_left _ hk)
                      · rcases List.mem_cons.mp hi with heq | hi'
                        · subst heq
                          rw [hget] at hget'
                          rw [Except.ok.injEq] at hget'
                          rw [← hget'] at hkeq'
                          subst hkeq'
                          exact Or.inl (List.mem_append_right _
                            (List.mem_singleton_self _))
                        · exact Or.inr ⟨i, hi', hsurv, nv', hget', hkeq'⟩
            · have hf : pyTruthy nv = false := Bool.eq_false_iff.mpr hnv
              rw [if_pos (by simp [hf])] at h
              obtain ⟨hstr, hnodup, hiff⟩ := ih acc subs h hstrsubs
              refine ⟨hstr, hnodup, fun k => ?_⟩
              rw [hiff k,
                exists_cons_of_not_head
                  (fun i => survives i ∧ ∃ nv, pyDictGet i "name" = .ok nv ∧
                    k = translationGet tr nv) item rest ?_]
              rintro ⟨⟨_, _, nv₂, hg₂, ht₂⟩, _⟩
              rw [hget] at hg₂
              rw [Except.ok.injEq] at hg₂
              rw [← hg₂] at ht₂
              rw [ht₂] at hf
              cases hf

/-- C2: after a successful `commit`, `options.config.suboptions` holds
exactly one entry per parameter that survives the loop's skip checks
(not internal, not hidden, truthy name); each entry is keyed by the
`typo_keys`-translated name when the raw name is in that fixed table and
by the raw name otherwise; and the keys are distinct strings listed in
ascending (code-point) sorted order.  Descriptors whose name check fails
(missing or falsy name) produce no entry. -/
theorem c2_commit_suboptions (st : DocBuilderState) (doc : Documentation)
    (td pv : PyVal) (items : List PyVal)
    (h1 : commit st = .ok doc)
    (h2 : st.template_dict = some td)
    (h3 : pyDictGet td "parameters" = .ok pv)
    (h4 : pyIterate pv = .ok items) :
    (∃ strs : List String, doc.suboptions.map Prod.fst = strs.map PyVal.str ∧
        strs.Sorted (fun a b => a ≤ b) ∧ strs.Nodup) ∧
    ∀ k : PyVal, k ∈ doc.suboptions.map Prod.fst ↔
      ∃ i ∈ items, survives i ∧
        ∃ nv, pyDictGet i "name" = .ok nv ∧ k = typoTranslate nv := by
  unfold commit at h1
  simp only [h2] at h1
  have htd : td ≠ PyVal.none := by
    intro e
    subst e
    simp [pyDictGet] at h3
  rw [if_neg htd] at h1
  simp only [h3, h4] at h1
  cases hin : init_translation_items items [] with
  | error e => simp only [hin] at h1; cases h1
  | ok tr =>
    simp only [hin] at h1
    cases hta : st.template_all with
    | none => simp only [hta] at h1; cases h1
    | some tagLookup =>
      simp only [hta] at h1
      by_cases hn1 : st.module_name = PyVal.none
      · rw [if_pos hn1] at h1; cases h1
      rw [if_neg hn1] at h1
      by_cases hn2 : st.module_author = PyVal.none
      · rw [if_pos hn2] at h1; cases h1
      rw [if_neg hn2] at h1
      by_cases hn3 : st.module_states = PyVal.none
      · rw [if_pos hn3] at h1; cases h1
      rw [if_neg hn3] at h1
      by_cases hn4 : st.module_default_state = PyVal.none
      · rw [if_pos hn4] at h1; cases h1
      rw [if_neg hn4] at h1
      cases hloop : commit_loop tagLookup tr items [] with
      | error e => simp only [hloop] at h1; cases h1
      | ok subs =>
        simp only [hloop] at h1
        cases hsort : pySortedStrKeys (subs.map Prod.fst) with
        | error e => simp only [hsort] at h1; cases h1
        | ok sortedKeys =>
          simp only [hsort] at h1
          rw [Except.ok.injEq] at h1
          subst h1
          unfold pySortedStrKeys at hsort
          cases hall : allStrKeys (subs.map Prod.fst) with
          | none => rw [hall] at hsort; cases hsort
          | some strs =>
            rw [hall] at hsort
            rw [Except.ok.injEq] at hsort
            have hkeys : subs.map Prod.fst = strs.map PyVal.str :=
              allStrKeys_eq _ _ hall
            have hstrsubs : ∀ p ∈ subs.map Prod.fst, ∃ s, p = PyVal.str s := by
              rw [hkeys]
              intro p hp
              obtain ⟨s, _, rfl⟩ := List.mem_map.mp hp
              exact ⟨s, rfl⟩
            obtain ⟨_, hnodup, hiff⟩ :=
              commit_loop_keys tagLookup tr items [] subs hloop hstrsubs
            have hnodup_subs : (subs.map Prod.fst).Nodup := hnodup (by simp)
            have hnodup_strs : strs.Nodup := by
              rw [hkeys] at hnodup_subs
              exact hnodup_subs.of_map
            have hperm : List.Perm sortedKeys strs := by
              rw [← hsort]
              exact List.perm_insertionSort _ strs
            have hmemsub : ∀ k ∈ sortedKeys, ∃ v, pyDictLookup subs (.str k) = some v := by
              intro k hk
              have hks : k ∈ strs := hperm.subset hk
              have hmem : PyVal.str k ∈ subs.map Prod.fst := by
                rw [hkeys]
                exact List.mem_map_of_mem _ hks
              exact pyDictLookup_isSome_of_mem subs k hmem
            have hfinalkeys :
                (sortedKeys.filterMap (fun k =>
                  (pyDictLookup subs (.str k)).map
                    (fun v => ((PyVal.str k : PyVal), v)))).map Prod.fst =
                  sortedKeys.map PyVal.str :=
              filterMap_lookup_keys subs sortedKeys hmemsub
            constructor
            · refine ⟨sortedKeys, ?_, ?_, ?_⟩
              · simpa using hfinalkeys
              · rw [← hsort]
                exact List.sorted_insertionSort _ strs
              · exact hperm.nodup_iff.mpr hnodup_strs
            · intro k
              have hchain : k ∈ (sortedKeys.filterMap (fun k =>
                  (pyDictLookup subs (.str k)).map
                    (fun v => ((PyVal.str k : PyVal), v)))).map Prod.fst ↔
                  k ∈ subs.map Prod.fst := by
                rw [hfinalkeys, hkeys]
                constructor
                · intro hk
                  obtain ⟨s, hs, rfl⟩ := List.mem_map.mp hk
                  exact List.mem_map_of_mem _ (hperm.subset hs)
                · intro hk
                  obtain ⟨s, hs, rfl⟩ := List.mem_map.mp hk
                  exact List.mem_map_of_mem _ (hperm.mem_iff.mpr hs)
              simp only [Documentation.suboptions]
              rw [hchain, hiff k]
              constructor
              · rintro (hacc | ⟨i, hi, hsurv, nv, hget, hkeq⟩)
                · simp at hacc
                · exact ⟨i, hi, hsurv, nv, hget, by
                    rw [hkeq,
                      translationGet_eq_typoTranslate items tr hin i hi hsurv nv hget]⟩
              · rintro ⟨i, hi, hsurv, nv, hget, hkeq⟩
                right
                exact ⟨i, hi, hsurv, nv, hget, by
                  rw [hkeq,
                    translationGet_eq_typoTranslate items tr hin i hi hsurv nv hget]⟩

theorem c2_commit_suboptions_witness :
    (∃ strs : List String, exampleDoc.suboptions.map Prod.fst = strs.map PyVal.str ∧
        strs.Sorted (fun a b => a ≤ b) ∧ strs.Nodup) ∧
    ∀ k : PyVal, k ∈ exampleDoc.suboptions.map Prod.fst ↔
      ∃ i ∈ [PyVal.dict [("name", .str "BBB"),
               ("annotations", .dict [("IsInternal", .str "true")])],
             PyVal.dict [("name", .str "AAA"), ("parameterType", .str "string"),
               ("optional", .str "true")]],
        survives i ∧ ∃ nv, pyDictGet i "name" = .ok nv ∧ k = typoTranslate nv :=
  c2_commit_suboptions exampleState exampleDoc exampleTemplate
    (.list [.dict [("name", .str "BBB"),
        ("annotations", .dict [("IsInternal", .str "true")])],
      .dict [("name", .str "AAA"), ("parameterType", .str "string"),
        ("optional", .str "true")]])
    [.dict [("name", .str "BBB"),
        ("annotations", .dict [("IsInternal", .str "true")])],
      .dict [("name", .str "AAA"), ("parameterType", .str "string"),
        ("optional", .str "true")]]
    (by decide) (by decide) (by decide) (by decide)
